import Mathlib

/-! # QuartzArc STM32F103C6 Blue Pill: peripheral managers

A shallow embedding of the timer manager (`QAD_TimerMgr.cpp`), of the
bounds-checked accessors of the UART manager (`QAD_UARTMgr.hpp`) and of the
frame timing block of the processing loop (`main.cpp`).

Conventions of the embedding:

* every `enum X : uint8_t` that the code indexes with, compares numerically or
  tests for truth is a `Nat` holding the 8-bit value; the enumerators are named
  constants;
* the descriptor array `m_sTimers[QAD_Timer_PeriphCount]` is a `List`, and every
  array access goes through `[i]?`: an operation returns `none` exactly when the
  C++ code would read or write outside the array (undefined behaviour), and
  `some _` with its result otherwise;
* methods of the singleton take the manager state as an argument and, when
  they write to the table, return the new state.
-/

namespace QuartzArc

/-! ## setup.hpp -/

/-- Result enum of `setup.hpp`. -/
inductive QA_Result where
  | QA_OK
  | QA_Fail
  | QA_Error_PeriphBusy
  | QA_Error_PeriphNotSupported
  deriving DecidableEq, Repr

/-! ## Timer manager: declarations -/

/-- Modelled from the spec: the enumerator `QAD_Timer1` of `QAD_Timer_Periph`
(declared in `QAD_TimerMgr.hpp`, which is not among the sources); the first table index. -/
def QAD_Timer1 : Nat := 0

/-- Modelled from the spec: the enumerator `QAD_Timer2` of `QAD_Timer_Periph`
(declared in `QAD_TimerMgr.hpp`, which is not among the sources). -/
def QAD_Timer2 : Nat := 1

/-- Modelled from the spec: the enumerator `QAD_Timer3` of `QAD_Timer_Periph`
(declared in `QAD_TimerMgr.hpp`, which is not among the sources). -/
def QAD_Timer3 : Nat := 2

/-- Modelled from the spec: the sentinel `QAD_TimerNone` of `QAD_Timer_Periph`
(declared in `QAD_TimerMgr.hpp`, which is not among the sources); it follows the
three timers, as `QAD_UARTNone` follows the UARTs in `QAD_UARTMgr.hpp`. -/
def QAD_TimerNone : Nat := 3

/-- Modelled from the spec: the constant `QAD_Timer_PeriphCount`
(declared in `QAD_TimerMgr.hpp`, which is not among the sources), the size of the
descriptor table; equal to the sentinel, as `QAD_UART_PeriphCount = QAD_UARTNone`. -/
def QAD_Timer_PeriphCount : Nat := QAD_TimerNone

/-- Modelled from the spec: the enumerator `QAD_Timer_Unused` of `QAD_Timer_State`
(declared in `QAD_TimerMgr.hpp`, which is not among the sources). It is the value
that tests false: `imp_registerTimer` returns `QA_Fail` on `!eState`, documented as
"QA_Fail if eState is set to QAD_Timer_Unused". -/
def QAD_Timer_Unused : Nat := 0

/-- Modelled from the spec: the enumerator `QAD_Timer_InUse_IRQ` of `QAD_Timer_State`
(declared in `QAD_TimerMgr.hpp`, which is not among the sources); the use kinds are
numbered in the order the comment of `imp_registerTimer` lists them. -/
def QAD_Timer_InUse_IRQ : Nat := 1

/-- Modelled from the spec: the enumerator `QAD_Timer_InUse_Encoder` of `QAD_Timer_State`
(declared in `QAD_TimerMgr.hpp`, which is not among the sources). -/
def QAD_Timer_InUse_Encoder : Nat := 2

/-- Modelled from the spec: the enumerator `QAD_Timer_InUse_PWM` of `QAD_Timer_State`
(declared in `QAD_TimerMgr.hpp`, which is not among the sources). -/
def QAD_Timer_InUse_PWM : Nat := 3

/-- Modelled from the spec: the enumerator `QAD_Timer_InUse_ADC` of `QAD_Timer_State`
(declared in `QAD_TimerMgr.hpp`, which is not among the sources). -/
def QAD_Timer_InUse_ADC : Nat := 4

/-- Modelled from the spec: the enumerator `QAD_Timer_16bit` of `QAD_Timer_Type`
(declared in `QAD_TimerMgr.hpp`, which is not among the sources); the lower
capability class. -/
def QAD_Timer_16bit : Nat := 0

/-- Modelled from the spec: the enumerator `QAD_Timer_32bit` of `QAD_Timer_Type`
(declared in `QAD_TimerMgr.hpp`, which is not among the sources); the higher
capability class, which also satisfies a 16-bit request. -/
def QAD_Timer_32bit : Nat := 1

/-- Modelled from the spec: the descriptor struct `QAD_Timer_Data`
(declared in `QAD_TimerMgr.hpp`, which is not among the sources), with the fields
that `QAD_TimerMgr.cpp` reads and writes. `pInstance` is the address of the
register block and `eIRQ_Update` the interrupt number. -/
structure QAD_Timer_Data where
  eTimer : Nat
  eState : Nat
  uClockSpeed : Nat
  eType : Nat
  uChannels : Nat
  bEncoder : Bool
  bADC : Bool
  pInstance : Nat
  eIRQ_Update : Int
  deriving DecidableEq, Repr

/-- The timer manager: its only data member is the descriptor table `m_sTimers`. -/
structure QAD_TimerMgr where
  m_sTimers : List QAD_Timer_Data
  deriving DecidableEq, Repr

/-- The table has the size its declaration `m_sTimers[QAD_Timer_PeriphCount]` gives it. -/
def QAD_TimerMgr.Sized (m : QAD_TimerMgr) : Prop :=
  m.m_sTimers.length = QAD_Timer_PeriphCount

instance (m : QAD_TimerMgr) : Decidable m.Sized := by
  unfold QAD_TimerMgr.Sized; infer_instance

/-- Register block address `TIM1` of the vendor header `stm32f103x6.h`. -/
def TIM1 : Nat := 0x40012C00

/-- Register block address `TIM2` of the vendor header `stm32f103x6.h`. -/
def TIM2 : Nat := 0x40000000

/-- Register block address `TIM3` of the vendor header `stm32f103x6.h`. -/
def TIM3 : Nat := 0x40000400

/-- Interrupt number `TIM1_UP_IRQn` of the vendor header `stm32f103x6.h`. -/
def TIM1_UP_IRQn : Int := 25

/-- Interrupt number `TIM2_IRQn` of the vendor header `stm32f103x6.h`. -/
def TIM2_IRQn : Int := 28

/-- Interrupt number `TIM3_IRQn` of the vendor header `stm32f103x6.h`. -/
def TIM3_IRQn : Int := 29

/-! ## Timer manager: constructor -/

/-- The constructor `QAD_TimerMgr::QAD_TimerMgr`. The two bus clock frequencies
returned by `HAL_RCC_GetPCLK1Freq()` and `HAL_RCC_GetPCLK2Freq()` are parameters;
the product `HAL_RCC_GetPCLK1Freq() * 2` is a `uint32_t` product. -/
def QAD_TimerMgr.ctor (pclk1 pclk2 : Nat) : QAD_TimerMgr :=
  { m_sTimers :=
      [ { eTimer := QAD_Timer1, eState := QAD_Timer_Unused, uClockSpeed := pclk2,
          eType := QAD_Timer_16bit, uChannels := 4, bEncoder := true, bADC := false,
          pInstance := TIM1, eIRQ_Update := TIM1_UP_IRQn },
        { eTimer := QAD_Timer2, eState := QAD_Timer_Unused,
          uClockSpeed := (pclk1 * 2) % 2 ^ 32,
          eType := QAD_Timer_16bit, uChannels := 4, bEncoder := true, bADC := false,
          pInstance := TIM2, eIRQ_Update := TIM2_IRQn },
        { eTimer := QAD_Timer3, eState := QAD_Timer_Unused,
          uClockSpeed := (pclk1 * 2) % 2 ^ 32,
          eType := QAD_Timer_16bit, uChannels := 4, bEncoder := true, bADC := false,
          pInstance := TIM3, eIRQ_Update := TIM3_IRQn } ] }

/-! ## Timer manager: management methods -/

/-- The method `QAD_TimerMgr::imp_registerTimer`: the busy test comes first, then the
test of the requested use kind, then the write of the new state. -/
def QAD_TimerMgr.imp_registerTimer (m : QAD_TimerMgr) (eTimer eState : Nat) :
    Option (QA_Result × QAD_TimerMgr) :=
  match m.m_sTimers[eTimer]? with
  | none => none
  | some d =>
    if d.eState ≠ 0 then
      some (QA_Result.QA_Error_PeriphBusy, m)
    else if eState = 0 then
      some (QA_Result.QA_Fail, m)
    else
      some (QA_Result.QA_OK,
        { m with m_sTimers := m.m_sTimers.set eTimer { d with eState := eState } })

/-- The method `QAD_TimerMgr::imp_deregisterTimer`: one unconditional write of
`QAD_Timer_Unused` to the state field of descriptor `eTimer`. -/
def QAD_TimerMgr.imp_deregisterTimer (m : QAD_TimerMgr) (eTimer : Nat) :
    Option QAD_TimerMgr :=
  match m.m_sTimers[eTimer]? with
  | none => none
  | some d =>
    some { m with m_sTimers := m.m_sTimers.set eTimer { d with eState := QAD_Timer_Unused } }

/-- The loop shared by the three search methods,
`for (uint8_t i = ...; i < QAD_Timer_PeriphCount; i++) if (cond(m_sTimers[i])) return m_sTimers[i].eTimer;`
followed by `return QAD_TimerNone;`. The first argument is the number of
iterations left (`QAD_Timer_PeriphCount - i`), the second the loop variable `i`. -/
def QAD_TimerMgr.scan (m : QAD_TimerMgr) (cond : QAD_Timer_Data → Bool) :
    Nat → Nat → Option Nat
  | 0, _ => some QAD_TimerNone
  | left + 1, i =>
    match m.m_sTimers[i]? with
    | none => none
    | some d => if cond d then some d.eTimer else QAD_TimerMgr.scan m cond left (i + 1)

/-- The method `QAD_TimerMgr::imp_findTimer`, with the loop condition
`(eType <= m_sTimers[i].eType) && (!m_sTimers[i].eState)`. -/
def QAD_TimerMgr.imp_findTimer (m : QAD_TimerMgr) (eType : Nat) : Option Nat :=
  m.scan (fun d => decide (eType ≤ d.eType) && decide (d.eState = 0)) QAD_Timer_PeriphCount 0

/-- The method `QAD_TimerMgr::imp_findTimerEncoder`, with the loop condition
`(!m_sTimers[i].eState) && (m_sTimers[i].bEncoder)`. -/
def QAD_TimerMgr.imp_findTimerEncoder (m : QAD_TimerMgr) : Option Nat :=
  m.scan (fun d => decide (d.eState = 0) && d.bEncoder) QAD_Timer_PeriphCount 0

/-- The method `QAD_TimerMgr::imp_findTimerADC`, with the loop condition
`(!m_sTimers[i].eState) && (m_sTimers[i].bADC)`. -/
def QAD_TimerMgr.imp_findTimerADC (m : QAD_TimerMgr) : Option Nat :=
  m.scan (fun d => decide (d.eState = 0) && d.bADC) QAD_Timer_PeriphCount 0

/-! ## Call sequences of a client -/

/-- One call of a client that changes ownership: `registerTimer` or `deregisterTimer`. -/
inductive TimerCall where
  | register (eTimer eState : Nat)
  | deregister (eTimer : Nat)
  deriving DecidableEq, Repr

/-- The timer id a call names. -/
def TimerCall.target : TimerCall → Nat
  | TimerCall.register eTimer _ => eTimer
  | TimerCall.deregister eTimer => eTimer

/-- The table after one call (the result code of a registration is dropped). -/
def QAD_TimerMgr.call (m : QAD_TimerMgr) : TimerCall → Option QAD_TimerMgr
  | TimerCall.register eTimer eState => (m.imp_registerTimer eTimer eState).map Prod.snd
  | TimerCall.deregister eTimer => m.imp_deregisterTimer eTimer

/-- The table after a sequence of calls, made from left to right. -/
def QAD_TimerMgr.calls (m : QAD_TimerMgr) : List TimerCall → Option QAD_TimerMgr
  | [] => some m
  | c :: cs =>
    match m.call c with
    | none => none
    | some m1 => QAD_TimerMgr.calls m1 cs

/-! ## UART manager: declarations and accessors (QAD_UARTMgr.hpp) -/

/-- Enumerator `QAD_UART1` of `QAD_UART_Periph`. -/
def QAD_UART1 : Nat := 0

/-- Enumerator `QAD_UART2` of `QAD_UART_Periph`. -/
def QAD_UART2 : Nat := 1

/-- Enumerator `QAD_UARTNone` of `QAD_UART_Periph`, the sentinel. -/
def QAD_UARTNone : Nat := 2

/-- The constant `QAD_UART_PeriphCount`. -/
def QAD_UART_PeriphCount : Nat := QAD_UARTNone

/-- Enumerator `QAD_UART_Unused` of `QAD_UART_State`. -/
def QAD_UART_Unused : Nat := 0

/-- Enumerator `QAD_UART_InUse` of `QAD_UART_State`. -/
def QAD_UART_InUse : Nat := 1

/-- Enumerator `QAD_UART_InvalidDevice` of `QAD_UART_State`. -/
def QAD_UART_InvalidDevice : Nat := 2

/-- The null pointer, as an address. -/
def NULL : Nat := 0

/-- Exception number `UsageFault_IRQn` of the vendor header `stm32f103x6.h`. -/
def UsageFault_IRQn : Int := -10

/-- The descriptor struct `QAD_UART_Data`. -/
structure QAD_UART_Data where
  eUART : Nat
  eState : Nat
  pInstance : Nat
  eIRQ : Int
  deriving DecidableEq, Repr

/-- The UART manager: its only data member is the descriptor table `m_sUARTs`. -/
structure QAD_UARTMgr where
  m_sUARTs : List QAD_UART_Data
  deriving DecidableEq, Repr

/-- The table has the size its declaration `m_sUARTs[QAD_UART_PeriphCount]` gives it. -/
def QAD_UARTMgr.Sized (m : QAD_UARTMgr) : Prop :=
  m.m_sUARTs.length = QAD_UART_PeriphCount

instance (m : QAD_UARTMgr) : Decidable m.Sized := by
  unfold QAD_UARTMgr.Sized; infer_instance

/-- The accessor `QAD_UARTMgr::getState`. -/
def QAD_UARTMgr.getState (m : QAD_UARTMgr) (eUART : Nat) : Option Nat :=
  if eUART ≥ QAD_UARTNone then
    some QAD_UART_InvalidDevice
  else
    match m.m_sUARTs[eUART]? with
    | none => none
    | some d => some d.eState

/-- The accessor `QAD_UARTMgr::getInstance`. -/
def QAD_UARTMgr.getInstance (m : QAD_UARTMgr) (eUART : Nat) : Option Nat :=
  if eUART ≥ QAD_UARTNone then
    some NULL
  else
    match m.m_sUARTs[eUART]? with
    | none => none
    | some d => some d.pInstance

/-- The accessor `QAD_UARTMgr::getIRQ`. -/
def QAD_UARTMgr.getIRQ (m : QAD_UARTMgr) (eUART : Nat) : Option Int :=
  if eUART ≥ QAD_UARTNone then
    some UsageFault_IRQn
  else
    match m.m_sUARTs[eUART]? with
    | none => none
    | some d => some d.eIRQ

/-! ## Concrete states used to instantiate the theorems -/

/-- The constructed timer manager on a board with a 36 MHz APB1 and a 72 MHz APB2 clock. -/
def bluePill : QAD_TimerMgr := QAD_TimerMgr.ctor 36000000 72000000

/-- A UART table of the declared size, with the two USART register blocks and
interrupt numbers of `stm32f103x6.h`, the second UART in use. -/
def uartTable : QAD_UARTMgr :=
  { m_sUARTs :=
      [ { eUART := QAD_UART1, eState := QAD_UART_Unused, pInstance := 0x40013800, eIRQ := 37 },
        { eUART := QAD_UART2, eState := QAD_UART_InUse, pInstance := 0x40004400, eIRQ := 38 } ] }

/-- The ownership state stored in descriptor `i`, when `i` is inside the table. -/
def QAD_TimerMgr.stateAt (m : QAD_TimerMgr) (i : Nat) : Option Nat :=
  (m.m_sTimers[i]?).map (fun d => d.eState)

/-- The constructed manager after Timer1 has been registered as an IRQ source. -/
def timer1Claimed : QAD_TimerMgr :=
  { m_sTimers :=
      [ { eTimer := QAD_Timer1, eState := QAD_Timer_InUse_IRQ, uClockSpeed := 72000000,
          eType := QAD_Timer_16bit, uChannels := 4, bEncoder := true, bADC := false,
          pInstance := TIM1, eIRQ_Update := TIM1_UP_IRQn },
        { eTimer := QAD_Timer2, eState := QAD_Timer_Unused, uClockSpeed := 72000000,
          eType := QAD_Timer_16bit, uChannels := 4, bEncoder := true, bADC := false,
          pInstance := TIM2, eIRQ_Update := TIM2_IRQn },
        { eTimer := QAD_Timer3, eState := QAD_Timer_Unused, uClockSpeed := 72000000,
          eType := QAD_Timer_16bit, uChannels := 4, bEncoder := true, bADC := false,
          pInstance := TIM3, eIRQ_Update := TIM3_IRQn } ] }

/-- A table of the declared size with two 16-bit timers followed by a 32-bit
timer, all unused, each descriptor storing its index as identity. -/
def mixedTable : QAD_TimerMgr :=
  { m_sTimers :=
      [ { eTimer := QAD_Timer1, eState := QAD_Timer_Unused, uClockSpeed := 72000000,
          eType := QAD_Timer_16bit, uChannels := 4, bEncoder := true, bADC := false,
          pInstance := TIM1, eIRQ_Update := TIM1_UP_IRQn },
        { eTimer := QAD_Timer2, eState := QAD_Timer_Unused, uClockSpeed := 72000000,
          eType := QAD_Timer_16bit, uChannels := 4, bEncoder := true, bADC := false,
          pInstance := TIM2, eIRQ_Update := TIM2_IRQn },
        { eTimer := QAD_Timer3, eState := QAD_Timer_Unused, uClockSpeed := 72000000,
          eType := QAD_Timer_32bit, uChannels := 4, bEncoder := true, bADC := false,
          pInstance := TIM3, eIRQ_Update := TIM3_IRQn } ] }

/-- Descriptor `d` can serve a request for counter type `eType`: it is unused and
its type is at least the requested one. -/
def QAD_Timer_Data.Serves (eType : Nat) (d : QAD_Timer_Data) : Prop :=
  d.eState = QAD_Timer_Unused ∧ eType ≤ d.eType

/-- Descriptor `d` can serve as a rotary encoder counter: unused, encoder flag set. -/
def QAD_Timer_Data.FreeEncoder (d : QAD_Timer_Data) : Prop :=
  d.eState = QAD_Timer_Unused ∧ d.bEncoder = true

/-- Descriptor `d` can serve as an ADC trigger: unused, ADC flag set. -/
def QAD_Timer_Data.FreeADC (d : QAD_Timer_Data) : Prop :=
  d.eState = QAD_Timer_Unused ∧ d.bADC = true

/-- Index `i` holds descriptor `d`, which satisfies `P`, and no descriptor at a
smaller index satisfies `P`. -/
def QAD_TimerMgr.FirstAt (m : QAD_TimerMgr) (P : QAD_Timer_Data → Prop) (i : Nat)
    (d : QAD_Timer_Data) : Prop :=
  m.m_sTimers[i]? = some d ∧ P d ∧
    ∀ (j : Nat) (e : QAD_Timer_Data), j < i → m.m_sTimers[j]? = some e → ¬ P e

/-- No descriptor of the table satisfies `P`. -/
def QAD_TimerMgr.NoneIs (m : QAD_TimerMgr) (P : QAD_Timer_Data → Prop) : Prop :=
  ∀ (i : Nat) (d : QAD_Timer_Data), m.m_sTimers[i]? = some d → ¬ P d

/-- The search result `r` is the first fit for `P`: the identity stored in the
descriptor at the smallest index that satisfies `P`, or `QAD_TimerNone` when no
descriptor satisfies `P`. -/
def QAD_TimerMgr.FirstFit (m : QAD_TimerMgr) (P : QAD_Timer_Data → Prop) (r : Nat) : Prop :=
  (∃ i d, m.FirstAt P i d ∧ r = d.eTimer) ∨ (m.NoneIs P ∧ r = QAD_TimerNone)

/-- No descriptor stores the sentinel `QAD_TimerNone` as its identity. -/
def QAD_TimerMgr.Named (m : QAD_TimerMgr) : Prop :=
  ∀ (i : Nat) (d : QAD_Timer_Data), m.m_sTimers[i]? = some d → d.eTimer ≠ QAD_TimerNone

/-! ## Timer manager: status methods -/

/-- The loop shared by the two status methods,
`for (uint8_t i = ...; i < QAD_Timer_PeriphCount; i++) if (cond(m_sTimers[i])) uCount++;`
followed by `return uCount;`. The first argument is the number of iterations
left, the second the loop variable `i`, the third the `uint8_t` counter `uCount`. -/
def QAD_TimerMgr.count (m : QAD_TimerMgr) (cond : QAD_Timer_Data → Bool) :
    Nat → Nat → Nat → Option Nat
  | 0, _, uCount => some uCount
  | left + 1, i, uCount =>
    match m.m_sTimers[i]? with
    | none => none
    | some d =>
      QAD_TimerMgr.count m cond left (i + 1) (if cond d then (uCount + 1) % 2 ^ 8 else uCount)

/-- The method `QAD_TimerMgr::imp_getTimersActive`, counting on `m_sTimers[i].eState`. -/
def QAD_TimerMgr.imp_getTimersActive (m : QAD_TimerMgr) : Option Nat :=
  m.count (fun d => decide (d.eState ≠ 0)) QAD_Timer_PeriphCount 0 0

/-- The method `QAD_TimerMgr::imp_getTimersInactive`, counting on `!m_sTimers[i].eState`. -/
def QAD_TimerMgr.imp_getTimersInactive (m : QAD_TimerMgr) : Option Nat :=
  m.count (fun d => decide (d.eState = 0)) QAD_Timer_PeriphCount 0 0

/-! ## Timer manager: clock methods -/

/-- The platform primitives the clock methods invoke, the vendor macros
`__HAL_RCC_TIMn_CLK_ENABLE()`, `__HAL_RCC_TIMn_FORCE_RESET()`,
`__HAL_RCC_TIMn_RELEASE_RESET()` and `__HAL_RCC_TIMn_CLK_DISABLE()`, each recorded
with the register block `TIMn` it names. -/
inductive RccCall where
  | CLK_ENABLE (pInstance : Nat)
  | FORCE_RESET (pInstance : Nat)
  | RELEASE_RESET (pInstance : Nat)
  | CLK_DISABLE (pInstance : Nat)
  deriving DecidableEq, Repr

/-- The method `QAD_TimerMgr::imp_enableClock`: a `switch` on `eTimer` with one case
per timer, an empty case for `QAD_TimerNone` and no default. It returns the
manager, which it does not write to, and the primitives it invoked, in order. -/
def QAD_TimerMgr.imp_enableClock (m : QAD_TimerMgr) (eTimer : Nat) :
    QAD_TimerMgr × List RccCall :=
  if eTimer = QAD_Timer1 then
    (m, [RccCall.CLK_ENABLE TIM1, RccCall.FORCE_RESET TIM1, RccCall.RELEASE_RESET TIM1])
  else if eTimer = QAD_Timer2 then
    (m, [RccCall.CLK_ENABLE TIM2, RccCall.FORCE_RESET TIM2, RccCall.RELEASE_RESET TIM2])
  else if eTimer = QAD_Timer3 then
    (m, [RccCall.CLK_ENABLE TIM3, RccCall.FORCE_RESET TIM3, RccCall.RELEASE_RESET TIM3])
  else if eTimer = QAD_TimerNone then
    (m, [])
  else
    (m, [])

/-- The method `QAD_TimerMgr::imp_disableClock`: a `switch` on `eTimer` with one case
per timer, an empty case for `QAD_TimerNone` and no default. It returns the
manager, which it does not write to, and the primitives it invoked, in order. -/
def QAD_TimerMgr.imp_disableClock (m : QAD_TimerMgr) (eTimer : Nat) :
    QAD_TimerMgr × List RccCall :=
  if eTimer = QAD_Timer1 then
    (m, [RccCall.CLK_DISABLE TIM1])
  else if eTimer = QAD_Timer2 then
    (m, [RccCall.CLK_DISABLE TIM2])
  else if eTimer = QAD_Timer3 then
    (m, [RccCall.CLK_DISABLE TIM3])
  else if eTimer = QAD_TimerNone then
    (m, [])
  else
    (m, [])

/-! ## Manager operations as seen by a driver -/

/-- One call of a manager method by a driver. -/
inductive MgrOp where
  | registerTimer (eTimer eState : Nat)
  | deregisterTimer (eTimer : Nat)
  | findTimer (eType : Nat)
  | findTimerEncoder
  | findTimerADC
  | getTimersActive
  | getTimersInactive
  | enableClock (eTimer : Nat)
  | disableClock (eTimer : Nat)
  deriving DecidableEq, Repr

/-- The operation takes a timer id and that id is a table index, or it takes no id. -/
def MgrOp.OnValidId : MgrOp → Prop
  | MgrOp.registerTimer eTimer _ => eTimer < QAD_Timer_PeriphCount
  | MgrOp.deregisterTimer eTimer => eTimer < QAD_Timer_PeriphCount
  | MgrOp.enableClock eTimer => eTimer < QAD_Timer_PeriphCount
  | MgrOp.disableClock eTimer => eTimer < QAD_Timer_PeriphCount
  | _ => True

/-- The operation is a registration or a deregistration of timer `i`. -/
def MgrOp.Claims (op : MgrOp) (i : Nat) : Prop :=
  (∃ k, op = MgrOp.registerTimer i k) ∨ op = MgrOp.deregisterTimer i

/-- The manager after one operation and the platform primitives the operation
invoked (the value the method returns is dropped). The search and status
methods only read the table and invoke no primitive; the registration methods
invoke no primitive. -/
def QAD_TimerMgr.perform (m : QAD_TimerMgr) : MgrOp → Option (QAD_TimerMgr × List RccCall)
  | MgrOp.registerTimer eTimer eState =>
    (m.imp_registerTimer eTimer eState).map (fun r => (r.2, []))
  | MgrOp.deregisterTimer eTimer => (m.imp_deregisterTimer eTimer).map (fun m1 => (m1, []))
  | MgrOp.findTimer eType => (m.imp_findTimer eType).map (fun _ => (m, []))
  | MgrOp.findTimerEncoder => m.imp_findTimerEncoder.map (fun _ => (m, []))
  | MgrOp.findTimerADC => m.imp_findTimerADC.map (fun _ => (m, []))
  | MgrOp.getTimersActive => m.imp_getTimersActive.map (fun _ => (m, []))
  | MgrOp.getTimersInactive => m.imp_getTimersInactive.map (fun _ => (m, []))
  | MgrOp.enableClock eTimer => some (m.imp_enableClock eTimer)
  | MgrOp.disableClock eTimer => some (m.imp_disableClock eTimer)

/-- The manager after a sequence of operations, made from left to right, and the
platform primitives invoked along the way, in order. -/
def QAD_TimerMgr.performAll (m : QAD_TimerMgr) :
    List MgrOp → Option (QAD_TimerMgr × List RccCall)
  | [] => some (m, [])
  | op :: ops =>
    match m.perform op with
    | none => none
    | some (m1, ev) =>
      match QAD_TimerMgr.performAll m1 ops with
      | none => none
      | some (m2, ev2) => some (m2, ev ++ ev2)

/-- Descriptors `d` and `e` agree on every field other than the ownership state. -/
def QAD_Timer_Data.SameFixed (d e : QAD_Timer_Data) : Prop :=
  e.eTimer = d.eTimer ∧ e.eType = d.eType ∧ e.bEncoder = d.bEncoder ∧ e.bADC = d.bADC ∧
    e.uChannels = d.uChannels ∧ e.uClockSpeed = d.uClockSpeed ∧
    e.pInstance = d.pInstance ∧ e.eIRQ_Update = d.eIRQ_Update

/-- Tables `m` and `m1` have the same size and, index by index, descriptors that
agree on every field other than the ownership state. -/
def QAD_TimerMgr.SameFixed (m m1 : QAD_TimerMgr) : Prop :=
  m1.m_sTimers.length = m.m_sTimers.length ∧
    ∀ (i : Nat) (d e : QAD_Timer_Data),
      m.m_sTimers[i]? = some d → m1.m_sTimers[i]? = some e → d.SameFixed e

/-- Every descriptor stores its own table index as its identity. -/
def QAD_TimerMgr.Indexed (m : QAD_TimerMgr) : Prop :=
  ∀ (i : Nat) (d : QAD_Timer_Data), m.m_sTimers[i]? = some d → d.eTimer = i

/-- Index `i` is the smallest one whose descriptor is unused. -/
def QAD_TimerMgr.LowestUnused (m : QAD_TimerMgr) (i : Nat) : Prop :=
  m.stateAt i = some QAD_Timer_Unused ∧
    ∀ j : Nat, j < i → m.stateAt j ≠ some QAD_Timer_Unused

/-! ## main.cpp: frame timing -/

/-- The processing loop timing variables of `main`, all `uint32_t`. -/
structure FrameTicks where
  uTicks : Nat
  uCurTick : Nat
  uNewTick : Nat
  uOldTick : Nat
  deriving DecidableEq, Repr

/-- The frame timing block at the head of the processing loop of `main`, for one
iteration in which `HAL_GetTick()` returns `tick`. The sum and the differences
are `uint32_t` operations. -/
def frameTiming (s : FrameTicks) (tick : Nat) : FrameTicks :=
  let uCurTick := tick
  if uCurTick ≠ s.uNewTick then
    let uOldTick := s.uNewTick
    let uNewTick := uCurTick
    if uNewTick < uOldTick then
      { uTicks := (uNewTick + (0xFFFFFFFF + 2 ^ 32 - uOldTick) % 2 ^ 32) % 2 ^ 32,
        uCurTick := uCurTick, uNewTick := uNewTick, uOldTick := uOldTick }
    else
      { uTicks := (uNewTick + 2 ^ 32 - uOldTick) % 2 ^ 32,
        uCurTick := uCurTick, uNewTick := uNewTick, uOldTick := uOldTick }
  else
    { s with uTicks := 0, uCurTick := uCurTick }

/-- The number of milliseconds between two readings `old` and `cur` of the 32-bit
tick counter that counts one tick per millisecond: their difference modulo
`2 ^ 32`. -/
def elapsedTicks (old cur : Nat) : Nat :=
  (cur + 2 ^ 32 - old) % 2 ^ 32

/-- The loop variables in an iteration whose previous reading was the largest
tick value. -/
def beforeWrap : FrameTicks :=
  { uTicks := 1, uCurTick := 0xFFFFFFFF, uNewTick := 0xFFFFFFFF, uOldTick := 0xFFFFFFFE }

/-! ## Basic facts about the table -/

theorem sized_lookup (m : QAD_TimerMgr) (hm : m.Sized) (i : Nat)
    (hi : i < QAD_Timer_PeriphCount) : ∃ d, m.m_sTimers[i]? = some d := by
  have hlt : i < m.m_sTimers.length := by rw [hm]; exact hi
  exact ⟨m.m_sTimers[i], List.getElem?_eq_getElem hlt⟩

theorem lookup_lt (m : QAD_TimerMgr) (i : Nat) (d : QAD_Timer_Data)
    (h : m.m_sTimers[i]? = some d) : i < m.m_sTimers.length := by
  by_contra hge
  rw [List.getElem?_eq_none (Nat.le_of_not_lt hge)] at h
  exact Option.noConfusion h

theorem stateAt_set_self (m : QAD_TimerMgr) (i : Nat) (d e : QAD_Timer_Data)
    (h : m.m_sTimers[i]? = some d) :
    QAD_TimerMgr.stateAt { m with m_sTimers := m.m_sTimers.set i e } i = some e.eState := by
  have hlt := lookup_lt m i d h
  simp [QAD_TimerMgr.stateAt, List.getElem?_set_self hlt]

theorem stateAt_set_other (m : QAD_TimerMgr) (i j : Nat) (e : QAD_Timer_Data) (hij : i ≠ j) :
    QAD_TimerMgr.stateAt { m with m_sTimers := m.m_sTimers.set i e } j = m.stateAt j := by
  simp [QAD_TimerMgr.stateAt, List.getElem?_set_ne hij]

theorem sized_set (m : QAD_TimerMgr) (hm : m.Sized) (i : Nat) (e : QAD_Timer_Data) :
    QAD_TimerMgr.Sized { m with m_sTimers := m.m_sTimers.set i e } := by
  simpa [QAD_TimerMgr.Sized] using hm

theorem stateAt_eq (m : QAD_TimerMgr) (i s : Nat) (h : m.stateAt i = some s) :
    ∃ d, m.m_sTimers[i]? = some d ∧ d.eState = s := by
  unfold QAD_TimerMgr.stateAt at h
  cases hd : m.m_sTimers[i]? with
  | none => rw [hd] at h; exact Option.noConfusion h
  | some d =>
    rw [hd] at h
    exact ⟨d, rfl, Option.some.inj h⟩

/-- Registration on a descriptor that is in use: busy, table untouched. -/
theorem register_busy (m : QAD_TimerMgr) (i k : Nat) (d : QAD_Timer_Data)
    (hd : m.m_sTimers[i]? = some d) (hbusy : d.eState ≠ 0) :
    m.imp_registerTimer i k = some (QA_Result.QA_Error_PeriphBusy, m) := by
  simp [QAD_TimerMgr.imp_registerTimer, hd, hbusy]

/-- Registration of a real use kind on a free descriptor: success, state written. -/
theorem register_free (m : QAD_TimerMgr) (i k : Nat) (d : QAD_Timer_Data)
    (hd : m.m_sTimers[i]? = some d) (hfree : d.eState = 0) (hk : k ≠ 0) :
    m.imp_registerTimer i k = some (QA_Result.QA_OK,
      { m with m_sTimers := m.m_sTimers.set i { d with eState := k } }) := by
  simp [QAD_TimerMgr.imp_registerTimer, hd, hfree, hk]

/-- Registration of the null use kind on a free descriptor: failure, table untouched. -/
theorem register_null (m : QAD_TimerMgr) (i : Nat) (d : QAD_Timer_Data)
    (hd : m.m_sTimers[i]? = some d) (hfree : d.eState = 0) :
    m.imp_registerTimer i 0 = some (QA_Result.QA_Fail, m) := by
  simp [QAD_TimerMgr.imp_registerTimer, hd, hfree]

/-- A registration that returns `QA_OK` was made with a real use kind on a free
descriptor, and its only effect is the write of the state field. -/
theorem register_ok_inv (m m1 : QAD_TimerMgr) (i k : Nat)
    (h : m.imp_registerTimer i k = some (QA_Result.QA_OK, m1)) :
    ∃ d, m.m_sTimers[i]? = some d ∧ d.eState = 0 ∧ k ≠ 0 ∧
      m1 = { m with m_sTimers := m.m_sTimers.set i { d with eState := k } } := by
  unfold QAD_TimerMgr.imp_registerTimer at h
  cases hd : m.m_sTimers[i]? with
  | none => rw [hd] at h; exact Option.noConfusion h
  | some d =>
    rw [hd] at h
    by_cases hb : d.eState = 0
    · by_cases hk : k = 0
      · simp [hb, hk] at h
      · simp [hb, hk] at h
        exact ⟨d, rfl, hb, hk, h.symm⟩
    · simp [hb] at h

theorem deregister_eq (m : QAD_TimerMgr) (i : Nat) (d : QAD_Timer_Data)
    (hd : m.m_sTimers[i]? = some d) :
    m.imp_deregisterTimer i =
      some { m with m_sTimers := m.m_sTimers.set i { d with eState := QAD_Timer_Unused } } := by
  simp [QAD_TimerMgr.imp_deregisterTimer, hd]

/-- Writing back the descriptor that is already stored changes nothing. -/
theorem set_same (l : List QAD_Timer_Data) :
    ∀ (i : Nat) (d : QAD_Timer_Data), l[i]? = some d → l.set i d = l := by
  induction l with
  | nil => intro i d _; rfl
  | cons a l ih =>
    intro i d h
    cases i with
    | zero =>
      have had : a = d := by simpa using h
      rw [had]; rfl
    | succ i =>
      have h1 : l[i]? = some d := by simpa using h
      simp [List.set, ih i d h1]

/-- A call on a valid id that is not `deregisterTimer(i)` keeps the table size and
keeps a claimed descriptor `i` in the state it was claimed with. -/
theorem call_keeps_claim (m : QAD_TimerMgr) (hm : m.Sized) (i k : Nat)
    (hs : m.stateAt i = some k) (hk : k ≠ 0) (c : TimerCall)
    (hc : c.target < QAD_Timer_PeriphCount) (hne : c ≠ TimerCall.deregister i) :
    ∃ m1, m.call c = some m1 ∧ m1.Sized ∧ m1.stateAt i = some k := by
  obtain ⟨e, he⟩ := sized_lookup m hm c.target hc
  cases c with
  | register j s =>
    simp only [TimerCall.target] at he
    by_cases hb : e.eState = 0
    · by_cases hs0 : s = 0
      · subst hs0
        exact ⟨m, by simp [QAD_TimerMgr.call, register_null m j e he hb], hm, hs⟩
      · refine ⟨{ m with m_sTimers := m.m_sTimers.set j { e with eState := s } },
          by simp [QAD_TimerMgr.call, register_free m j s e he hb hs0],
          sized_set m hm j _, ?_⟩
        have hji : j ≠ i := by
          intro hji
          subst hji
          obtain ⟨d, hd, hdk⟩ := stateAt_eq m j k hs
          rw [he] at hd
          have hde : e = d := Option.some.inj hd
          subst hde
          exact hk (hdk ▸ hb)
        rw [stateAt_set_other m j i _ hji]
        exact hs
    · exact ⟨m, by simp [QAD_TimerMgr.call, register_busy m j s e he hb], hm, hs⟩
  | deregister j =>
    simp only [TimerCall.target] at he
    have hji : j ≠ i := fun hji => hne (by rw [hji])
    refine ⟨{ m with m_sTimers := m.m_sTimers.set j { e with eState := QAD_Timer_Unused } },
      by simp [QAD_TimerMgr.call, deregister_eq m j e he], sized_set m hm j _, ?_⟩
    rw [stateAt_set_other m j i _ hji]
    exact hs

/-- The same over a whole sequence of calls. -/
theorem calls_keep_claim (cs : List TimerCall) :
    ∀ (m : QAD_TimerMgr), m.Sized → ∀ (i k : Nat), m.stateAt i = some k → k ≠ 0 →
      (∀ c ∈ cs, TimerCall.target c < QAD_Timer_PeriphCount) →
      TimerCall.deregister i ∉ cs →
      ∃ m2, m.calls cs = some m2 ∧ m2.Sized ∧ m2.stateAt i = some k := by
  induction cs with
  | nil =>
    intro m hm i k hs _ _ _
    exact ⟨m, rfl, hm, hs⟩
  | cons c cs ih =>
    intro m hm i k hs hk hvalid hno
    have hc : c.target < QAD_Timer_PeriphCount := hvalid c (List.mem_cons_self c cs)
    have hne : c ≠ TimerCall.deregister i := fun h => hno (h ▸ List.mem_cons_self c cs)
    obtain ⟨m1, hcall, hm1, hs1⟩ := call_keeps_claim m hm i k hs hk c hc hne
    have hvalid1 : ∀ c1 ∈ cs, TimerCall.target c1 < QAD_Timer_PeriphCount :=
      fun c1 h1 => hvalid c1 (List.mem_cons_of_mem c h1)
    have hno1 : TimerCall.deregister i ∉ cs := fun h1 => hno (List.mem_cons_of_mem c h1)
    obtain ⟨m2, hcalls, hm2, hs2⟩ := ih m1 hm1 i k hs1 hk hvalid1 hno1
    exact ⟨m2, by simp [QAD_TimerMgr.calls, hcall, hcalls], hm2, hs2⟩

/-! ## Registration and release -/

/-- C1 (exclusivity). On a table of the declared size and a valid timer id, once
`registerTimer(id, k)` has returned `QA_OK`, let the client make any sequence of
calls on valid ids that contains no `deregisterTimer(id)` (registrations of any
id, `id` itself included, and deregistrations of other ids). The sequence runs
without leaving the table, and afterwards `registerTimer(id, k2)` returns
`QA_Error_PeriphBusy` for every `k2`, the `QAD_Timer_Unused` sentinel included,
leaves the table as it was, and the descriptor's state is still `k`. -/
theorem registerTimer_exclusive (m m1 : QAD_TimerMgr) (hm : m.Sized) (eTimer k : Nat)
    (_hid : eTimer < QAD_Timer_PeriphCount)
    (hreg : m.imp_registerTimer eTimer k = some (QA_Result.QA_OK, m1))
    (cs : List TimerCall)
    (hvalid : ∀ c ∈ cs, TimerCall.target c < QAD_Timer_PeriphCount)
    (hno : TimerCall.deregister eTimer ∉ cs) (k2 : Nat) :
    ∃ m2, m1.calls cs = some m2 ∧
      m2.imp_registerTimer eTimer k2 = some (QA_Result.QA_Error_PeriphBusy, m2) ∧
      m2.stateAt eTimer = some k := by
  obtain ⟨d, hd, _, hk, hm1⟩ := register_ok_inv m m1 eTimer k hreg
  have hsz1 : m1.Sized := by rw [hm1]; exact sized_set m hm eTimer _
  have hs1 : m1.stateAt eTimer = some k := by
    rw [hm1]; exact stateAt_set_self m eTimer d _ hd
  obtain ⟨m2, hcalls, _, hs2⟩ := calls_keep_claim cs m1 hsz1 eTimer k hs1 hk hvalid hno
  obtain ⟨d2, hd2, hd2k⟩ := stateAt_eq m2 eTimer k hs2
  exact ⟨m2, hcalls, register_busy m2 eTimer k2 d2 hd2 (by rw [hd2k]; exact hk), hs2⟩

/-- C1 instantiated: Timer1 of the constructed manager is claimed as an IRQ source;
Timer2 is then claimed and released and Timer1 is asked for again as an ADC
trigger; a registration of Timer1 with the `QAD_Timer_Unused` sentinel is busy. -/
theorem registerTimer_exclusive_witness :
    ∃ m2, timer1Claimed.calls
        [TimerCall.register QAD_Timer2 QAD_Timer_InUse_PWM, TimerCall.deregister QAD_Timer2,
         TimerCall.register QAD_Timer1 QAD_Timer_InUse_ADC] = some m2 ∧
      m2.imp_registerTimer QAD_Timer1 QAD_Timer_Unused
        = some (QA_Result.QA_Error_PeriphBusy, m2) ∧
      m2.stateAt QAD_Timer1 = some QAD_Timer_InUse_IRQ :=
  registerTimer_exclusive bluePill timer1Claimed (by decide) QAD_Timer1 QAD_Timer_InUse_IRQ
    (by decide) (by decide) _ (by decide) (by decide) QAD_Timer_Unused

/-- C2. On a table of the declared size, for a valid timer id whose descriptor is
`QAD_Timer_Unused` and a use kind `k` other than `QAD_Timer_Unused`,
`registerTimer(id, k)` returns `QA_OK` and the descriptor's state afterwards is `k`. -/
theorem registerTimer_unused_ok (m : QAD_TimerMgr) (_hm : m.Sized) (eTimer k : Nat)
    (_hid : eTimer < QAD_Timer_PeriphCount)
    (hfree : m.stateAt eTimer = some QAD_Timer_Unused) (hk : k ≠ QAD_Timer_Unused) :
    ∃ m1, m.imp_registerTimer eTimer k = some (QA_Result.QA_OK, m1) ∧
      m1.stateAt eTimer = some k := by
  obtain ⟨d, hd, hd0⟩ := stateAt_eq m eTimer _ hfree
  exact ⟨_, register_free m eTimer k d hd hd0 hk, stateAt_set_self m eTimer d _ hd⟩

/-- C2 instantiated: Timer3 of the constructed manager is claimed for PWM. -/
theorem registerTimer_unused_ok_witness :
    ∃ m1, bluePill.imp_registerTimer QAD_Timer3 QAD_Timer_InUse_PWM
        = some (QA_Result.QA_OK, m1) ∧
      m1.stateAt QAD_Timer3 = some QAD_Timer_InUse_PWM :=
  registerTimer_unused_ok bluePill (by decide) QAD_Timer3 QAD_Timer_InUse_PWM
    (by decide) (by decide) (by decide)

/-- C3, refuted as stated: Timer1 is in use (registered as an IRQ source on the
constructed manager), the id is valid and the table has the declared size, and
`registerTimer(QAD_Timer1, QAD_Timer_Unused)` returns `QA_Error_PeriphBusy`,
which is not `QA_Fail`. -/
theorem registerTimer_null_kind_busy_counterexample :
    timer1Claimed.Sized ∧ QAD_Timer1 < QAD_Timer_PeriphCount ∧
      bluePill.imp_registerTimer QAD_Timer1 QAD_Timer_InUse_IRQ
        = some (QA_Result.QA_OK, timer1Claimed) ∧
      timer1Claimed.imp_registerTimer QAD_Timer1 QAD_Timer_Unused
        = some (QA_Result.QA_Error_PeriphBusy, timer1Claimed) ∧
      (timer1Claimed.imp_registerTimer QAD_Timer1 QAD_Timer_Unused).map Prod.fst
        ≠ some QA_Result.QA_Fail := by
  decide

/-- C3, amended. On a table of the declared size and a valid timer id,
`registerTimer(id, QAD_Timer_Unused)` never succeeds and leaves the table as it
was: it returns `QA_Fail` when the descriptor is `QAD_Timer_Unused`, and
`QA_Error_PeriphBusy` when the descriptor is in use (the busy test comes first). -/
theorem registerTimer_null_kind (m : QAD_TimerMgr) (hm : m.Sized) (eTimer : Nat)
    (hid : eTimer < QAD_Timer_PeriphCount) :
    ∃ s, m.stateAt eTimer = some s ∧
      (s = QAD_Timer_Unused →
        m.imp_registerTimer eTimer QAD_Timer_Unused = some (QA_Result.QA_Fail, m)) ∧
      (s ≠ QAD_Timer_Unused →
        m.imp_registerTimer eTimer QAD_Timer_Unused
          = some (QA_Result.QA_Error_PeriphBusy, m)) := by
  obtain ⟨d, hd⟩ := sized_lookup m hm eTimer hid
  refine ⟨d.eState, by simp [QAD_TimerMgr.stateAt, hd], ?_, ?_⟩
  · intro h0
    exact register_null m eTimer d hd h0
  · intro h1
    exact register_busy m eTimer _ d hd h1

/-- C3 amended, instantiated on the free Timer2 of the constructed manager. -/
theorem registerTimer_null_kind_witness :
    ∃ s, bluePill.stateAt QAD_Timer2 = some s ∧
      (s = QAD_Timer_Unused →
        bluePill.imp_registerTimer QAD_Timer2 QAD_Timer_Unused
          = some (QA_Result.QA_Fail, bluePill)) ∧
      (s ≠ QAD_Timer_Unused →
        bluePill.imp_registerTimer QAD_Timer2 QAD_Timer_Unused
          = some (QA_Result.QA_Error_PeriphBusy, bluePill)) :=
  registerTimer_null_kind bluePill (by decide) QAD_Timer2 (by decide)

/-- C4 (idempotent release). On a table of the declared size and a valid timer id,
`deregisterTimer(id)` leaves the descriptor `QAD_Timer_Unused`; a second
`deregisterTimer(id)` gives the very table the first one gave; and when the
descriptor was already `QAD_Timer_Unused` the first call leaves the whole table
as it was. -/
theorem deregisterTimer_idempotent (m : QAD_TimerMgr) (hm : m.Sized) (eTimer : Nat)
    (hid : eTimer < QAD_Timer_PeriphCount) :
    ∃ m1, m.imp_deregisterTimer eTimer = some m1 ∧
      m1.stateAt eTimer = some QAD_Timer_Unused ∧
      m1.imp_deregisterTimer eTimer = some m1 ∧
      (m.stateAt eTimer = some QAD_Timer_Unused → m1 = m) := by
  obtain ⟨d, hd⟩ := sized_lookup m hm eTimer hid
  have hlt := lookup_lt m eTimer d hd
  refine ⟨{ m with m_sTimers := m.m_sTimers.set eTimer { d with eState := QAD_Timer_Unused } },
    deregister_eq m eTimer d hd, stateAt_set_self m eTimer d _ hd, ?_, ?_⟩
  · have hd1 : (m.m_sTimers.set eTimer { d with eState := QAD_Timer_Unused })[eTimer]?
        = some { d with eState := QAD_Timer_Unused } := List.getElem?_set_self hlt
    simp [QAD_TimerMgr.imp_deregisterTimer, hd1, List.set_set]
  · intro hfree
    obtain ⟨d2, hd2, hd2s⟩ := stateAt_eq m eTimer _ hfree
    rw [hd] at hd2
    have hdd : d = d2 := Option.some.inj hd2
    subst hdd
    have hsame : ({ d with eState := QAD_Timer_Unused } : QAD_Timer_Data) = d := by
      cases d
      simp only [QAD_Timer_Data.mk.injEq, and_true, true_and]
      exact hd2s.symm
    rw [hsame, set_same m.m_sTimers eTimer d hd]

/-- C4 instantiated on Timer1 of the manager in which Timer1 is claimed. -/
theorem deregisterTimer_idempotent_witness :
    ∃ m1, timer1Claimed.imp_deregisterTimer QAD_Timer1 = some m1 ∧
      m1.stateAt QAD_Timer1 = some QAD_Timer_Unused ∧
      m1.imp_deregisterTimer QAD_Timer1 = some m1 ∧
      (timer1Claimed.stateAt QAD_Timer1 = some QAD_Timer_Unused → m1 = timer1Claimed) :=
  deregisterTimer_idempotent timer1Claimed (by decide) QAD_Timer1 (by decide)

/-- C5 (round trip). On a table of the declared size and a valid timer id, whenever
`registerTimer(id, k)` returns `QA_OK`, the following `deregisterTimer(id)` and
`registerTimer(id, k2)` with `k2` other than `QAD_Timer_Unused` both run, the
last call returns `QA_OK`, and the descriptor's state is then `k2`, whatever `k`
was. -/
theorem register_deregister_register (m m1 : QAD_TimerMgr) (_hm : m.Sized) (eTimer k k2 : Nat)
    (_hid : eTimer < QAD_Timer_PeriphCount)
    (hreg : m.imp_registerTimer eTimer k = some (QA_Result.QA_OK, m1))
    (hk2 : k2 ≠ QAD_Timer_Unused) :
    ∃ m2 m3, m1.imp_deregisterTimer eTimer = some m2 ∧
      m2.imp_registerTimer eTimer k2 = some (QA_Result.QA_OK, m3) ∧
      m3.stateAt eTimer = some k2 := by
  obtain ⟨d, hd, _, _, hm1⟩ := register_ok_inv m m1 eTimer k hreg
  have hlt := lookup_lt m eTimer d hd
  obtain ⟨d1, hd1⟩ : ∃ d1, m1.m_sTimers[eTimer]? = some d1 := by
    rw [hm1]; exact ⟨_, List.getElem?_set_self hlt⟩
  have hlt1 := lookup_lt m1 eTimer d1 hd1
  have hd2 : (m1.m_sTimers.set eTimer { d1 with eState := QAD_Timer_Unused })[eTimer]?
      = some { d1 with eState := QAD_Timer_Unused } := List.getElem?_set_self hlt1
  refine ⟨{ m1 with m_sTimers := m1.m_sTimers.set eTimer { d1 with eState := QAD_Timer_Unused } },
    _, deregister_eq m1 eTimer d1 hd1, register_free _ eTimer k2 _ hd2 rfl hk2, ?_⟩
  exact stateAt_set_self _ eTimer _ _ hd2

/-- C5 instantiated: Timer1 is claimed as an IRQ source, released, and claimed
again as an encoder counter. -/
theorem register_deregister_register_witness :
    ∃ m2 m3, timer1Claimed.imp_deregisterTimer QAD_Timer1 = some m2 ∧
      m2.imp_registerTimer QAD_Timer1 QAD_Timer_InUse_Encoder = some (QA_Result.QA_OK, m3) ∧
      m3.stateAt QAD_Timer1 = some QAD_Timer_InUse_Encoder :=
  register_deregister_register bluePill timer1Claimed (by decide) QAD_Timer1
    QAD_Timer_InUse_IRQ QAD_Timer_InUse_Encoder (by decide) (by decide) (by decide)

/-! ## Capability search -/

/-- The loop, started at index `i` with `left` iterations to go inside the table,
returns the identity stored at the first index from `i` on whose descriptor
passes the test, and `QAD_TimerNone` when none of the scanned descriptors does. -/
theorem scan_spec (m : QAD_TimerMgr) (cond : QAD_Timer_Data → Bool) :
    ∀ (left i : Nat), i + left ≤ m.m_sTimers.length →
      (∃ j d, i ≤ j ∧ j < i + left ∧ m.m_sTimers[j]? = some d ∧ cond d = true ∧
          (∀ j1 e, i ≤ j1 → j1 < j → m.m_sTimers[j1]? = some e → cond e = false) ∧
          m.scan cond left i = some d.eTimer) ∨
      ((∀ j e, i ≤ j → j < i + left → m.m_sTimers[j]? = some e → cond e = false) ∧
          m.scan cond left i = some QAD_TimerNone) := by
  intro left
  induction left with
  | zero =>
    intro i _
    exact Or.inr ⟨fun j e h1 h2 _ => absurd h2 (by omega), rfl⟩
  | succ n ih =>
    intro i hle
    have hlt : i < m.m_sTimers.length := by omega
    have hd : m.m_sTimers[i]? = some m.m_sTimers[i] := List.getElem?_eq_getElem hlt
    generalize m.m_sTimers[i] = d at hd
    cases hc : cond d with
    | true =>
      exact Or.inl ⟨i, d, Nat.le_refl i, by omega, hd, hc,
        fun j1 e h1 h2 _ => absurd h2 (by omega), by simp [QAD_TimerMgr.scan, hd, hc]⟩
    | false =>
      have hstep : m.scan cond (n + 1) i = m.scan cond n (i + 1) := by
        simp [QAD_TimerMgr.scan, hd, hc]
      rcases ih (i + 1) (by omega) with ⟨j, e, hij, hj, he, hce, hmin, hres⟩ | ⟨hall, hres⟩
      · refine Or.inl ⟨j, e, by omega, by omega, he, hce, ?_, by rw [hstep, hres]⟩
        intro j1 e1 h1 h2 he1
        by_cases hji : j1 = i
        · subst hji
          rw [hd] at he1
          rw [← Option.some.inj he1]; exact hc
        · exact hmin j1 e1 (by omega) h2 he1
      · refine Or.inr ⟨?_, by rw [hstep, hres]⟩
        intro j1 e1 h1 h2 he1
        by_cases hji : j1 = i
        · subst hji
          rw [hd] at he1
          rw [← Option.some.inj he1]; exact hc
        · exact hall j1 e1 (by omega) (by omega) he1

/-- On a table of the declared size the whole loop returns, and what it returns
is the first fit for the property the loop condition decides. -/
theorem scan_first_fit (m : QAD_TimerMgr) (hm : m.Sized) (cond : QAD_Timer_Data → Bool)
    (P : QAD_Timer_Data → Prop) (hP : ∀ d, cond d = true ↔ P d) :
    ∃ r, m.scan cond QAD_Timer_PeriphCount 0 = some r ∧ m.FirstFit P r := by
  have hnot : ∀ d, cond d = false → ¬ P d := by
    intro d hc hp
    rw [(hP d).mpr hp] at hc
    exact Bool.noConfusion hc
  have hle : 0 + QAD_Timer_PeriphCount ≤ m.m_sTimers.length := by
    rw [hm]; omega
  rcases scan_spec m cond QAD_Timer_PeriphCount 0 hle with
    ⟨j, d, _, _, hd, hc, hmin, hres⟩ | ⟨hall, hres⟩
  · exact ⟨d.eTimer, hres, Or.inl ⟨j, d,
      ⟨hd, (hP d).mp hc, fun j1 e h1 he => hnot e (hmin j1 e (Nat.zero_le j1) h1 he)⟩, rfl⟩⟩
  · refine ⟨QAD_TimerNone, hres, Or.inr ⟨?_, rfl⟩⟩
    unfold QAD_TimerMgr.NoneIs
    intro i d hd
    have hi : i < 0 + QAD_Timer_PeriphCount := by
      have := lookup_lt m i d hd
      rw [hm] at this
      omega
    exact hnot d (hall i d (Nat.zero_le i) hi hd)

/-- When no stored identity is the sentinel, a first fit is the sentinel exactly
when no descriptor has the property. -/
theorem firstFit_none_iff (m : QAD_TimerMgr) (P : QAD_Timer_Data → Prop) (r : Nat)
    (hn : m.Named) (hr : m.FirstFit P r) : r = QAD_TimerNone ↔ m.NoneIs P := by
  unfold QAD_TimerMgr.Named at hn
  unfold QAD_TimerMgr.NoneIs
  rcases hr with ⟨i, d, ⟨hd, hp, _⟩, hrd⟩ | ⟨hnone, hrn⟩
  · constructor
    · intro h
      exact absurd (hrd ▸ h) (hn i d hd)
    · intro h
      exact absurd hp (h i d hd)
  · exact ⟨fun _ => hnone, fun _ => hrn⟩

/-- A table whose list of stored identities is `0, 1, 2, ...` stores in every
descriptor its own index. -/
theorem indexed_of_ids (m : QAD_TimerMgr)
    (h : m.m_sTimers.map (fun d => d.eTimer) = List.range m.m_sTimers.length) :
    m.Indexed := by
  intro i d hd
  have hlt := lookup_lt m i d hd
  have h1 : (m.m_sTimers.map (fun d => d.eTimer))[i]? = some d.eTimer := by
    simp [hd]
  rw [h, List.getElem?_range hlt] at h1
  exact (Option.some.inj h1).symm

/-- In a table of the declared size whose descriptors store their indices, no
stored identity is the sentinel. -/
theorem indexed_named (m : QAD_TimerMgr) (hm : m.Sized) (hidx : m.Indexed) : m.Named := by
  intro i d hd hnone
  have hlt := lookup_lt m i d hd
  rw [hm, ← hidx i d hd, hnone] at hlt
  exact absurd hlt (Nat.lt_irrefl _)

/-- C6 (first fit by capability class). A table state of the manager is a table
of the declared size in which every descriptor stores its table index as
identity: the constructor writes the identities so and no method writes them
again. On every such table, whatever the types and ownership states, and for
every required type `eType`, `findTimer(eType)` returns, and its result is the
identity of the descriptor at the smallest index whose descriptor is unused and
of type at least `eType`; it is `QAD_TimerNone` exactly when no descriptor is
both. An unused 32-bit timer serves a 16-bit request, and a 16-bit timer never
serves a 32-bit request. -/
theorem imp_findTimer_first_fit (m : QAD_TimerMgr) (hm : m.Sized) (hidx : m.Indexed)
    (eType : Nat) :
    ∃ r, m.imp_findTimer eType = some r ∧
      ((∃ i d, m.FirstAt (QAD_Timer_Data.Serves eType) i d ∧ r = d.eTimer) ∨
        (m.NoneIs (QAD_Timer_Data.Serves eType) ∧ r = QAD_TimerNone)) ∧
      (r = QAD_TimerNone ↔ m.NoneIs (QAD_Timer_Data.Serves eType)) ∧
      (∀ d : QAD_Timer_Data, d.eState = QAD_Timer_Unused → d.eType = QAD_Timer_32bit →
        d.Serves QAD_Timer_16bit) ∧
      (∀ d : QAD_Timer_Data, d.eType = QAD_Timer_16bit → ¬ d.Serves QAD_Timer_32bit) := by
  have hP : ∀ d : QAD_Timer_Data,
      (decide (eType ≤ d.eType) && decide (d.eState = 0)) = true ↔ d.Serves eType := by
    intro d
    simp [QAD_Timer_Data.Serves, QAD_Timer_Unused, and_comm]
  obtain ⟨r, hr, hfit⟩ := scan_first_fit m hm _ _ hP
  refine ⟨r, hr, hfit, firstFit_none_iff m _ r (indexed_named m hm hidx) hfit, ?_, ?_⟩
  · intro d h0 h32
    exact ⟨h0, by rw [h32]; decide⟩
  · intro d h16 hs
    have := hs.2
    rw [h16] at this
    exact absurd this (by decide)

/-- C6 instantiated on `mixedTable` and a 32-bit request. -/
theorem imp_findTimer_first_fit_witness :
    ∃ r, mixedTable.imp_findTimer QAD_Timer_32bit = some r ∧
      ((∃ i d, mixedTable.FirstAt (QAD_Timer_Data.Serves QAD_Timer_32bit) i d ∧
          r = d.eTimer) ∨
        (mixedTable.NoneIs (QAD_Timer_Data.Serves QAD_Timer_32bit) ∧ r = QAD_TimerNone)) ∧
      (r = QAD_TimerNone ↔ mixedTable.NoneIs (QAD_Timer_Data.Serves QAD_Timer_32bit)) ∧
      (∀ d : QAD_Timer_Data, d.eState = QAD_Timer_Unused → d.eType = QAD_Timer_32bit →
        d.Serves QAD_Timer_16bit) ∧
      (∀ d : QAD_Timer_Data, d.eType = QAD_Timer_16bit → ¬ d.Serves QAD_Timer_32bit) :=
  imp_findTimer_first_fit mixedTable (by decide) (indexed_of_ids mixedTable (by decide))
    QAD_Timer_32bit

/-- C7 (end-to-end scenario). On a three-descriptor table whose identities are the
indices, whose types are 16-bit, 16-bit, 32-bit and whose descriptors are all
unused, `findTimer(32-bit)` returns the third descriptor; registering it with a
real use kind succeeds, after which `findTimer(32-bit)` returns `QAD_TimerNone`
and `findTimer(16-bit)` returns the first descriptor; registering that one with
a real use kind succeeds, after which `findTimer(16-bit)` returns the second
descriptor. -/
theorem findTimer_scenario (m : QAD_TimerMgr)
    (hids : m.m_sTimers.map (fun d => d.eTimer) = [QAD_Timer1, QAD_Timer2, QAD_Timer3])
    (htypes : m.m_sTimers.map (fun d => d.eType)
      = [QAD_Timer_16bit, QAD_Timer_16bit, QAD_Timer_32bit])
    (hfree : m.m_sTimers.map (fun d => d.eState)
      = [QAD_Timer_Unused, QAD_Timer_Unused, QAD_Timer_Unused])
    (k1 k2 : Nat) (hk1 : k1 ≠ QAD_Timer_Unused) (hk2 : k2 ≠ QAD_Timer_Unused) :
    m.imp_findTimer QAD_Timer_32bit = some QAD_Timer3 ∧
      ∃ m1, m.imp_registerTimer QAD_Timer3 k1 = some (QA_Result.QA_OK, m1) ∧
        m1.imp_findTimer QAD_Timer_32bit = some QAD_TimerNone ∧
        m1.imp_findTimer QAD_Timer_16bit = some QAD_Timer1 ∧
        ∃ m2, m1.imp_registerTimer QAD_Timer1 k2 = some (QA_Result.QA_OK, m2) ∧
          m2.imp_findTimer QAD_Timer_16bit = some QAD_Timer2 := by
  obtain ⟨l⟩ := m
  have hlen : l.length = 3 := by
    have := congrArg List.length hids
    simpa using this
  obtain ⟨a, b, c, rfl⟩ := List.length_eq_three.mp hlen
  simp only [List.map_cons, List.map_nil, List.cons.injEq, and_true] at hids htypes hfree
  obtain ⟨ha1, hb1, hc1⟩ := hids
  obtain ⟨ha2, hb2, hc2⟩ := htypes
  obtain ⟨ha3, hb3, hc3⟩ := hfree
  simp only [QAD_Timer_Unused] at hk1 hk2 ha3 hb3 hc3
  simp only [QAD_Timer_16bit, QAD_Timer_32bit] at ha2 hb2 hc2
  simp [QAD_TimerMgr.imp_findTimer, QAD_TimerMgr.scan, QAD_TimerMgr.imp_registerTimer,
    QAD_Timer_PeriphCount, QAD_TimerNone, QAD_Timer1, QAD_Timer2, QAD_Timer3,
    QAD_Timer_16bit, QAD_Timer_32bit, ha1, hb1, hc1, ha2, hb2, hc2, ha3, hb3, hc3, hk1, hk2]

/-- C7 instantiated on `mixedTable`, claiming the 32-bit timer for PWM and the
first 16-bit timer as an IRQ source. -/
theorem findTimer_scenario_witness :
    mixedTable.imp_findTimer QAD_Timer_32bit = some QAD_Timer3 ∧
      ∃ m1, mixedTable.imp_registerTimer QAD_Timer3 QAD_Timer_InUse_PWM
          = some (QA_Result.QA_OK, m1) ∧
        m1.imp_findTimer QAD_Timer_32bit = some QAD_TimerNone ∧
        m1.imp_findTimer QAD_Timer_16bit = some QAD_Timer1 ∧
        ∃ m2, m1.imp_registerTimer QAD_Timer1 QAD_Timer_InUse_IRQ
            = some (QA_Result.QA_OK, m2) ∧
          m2.imp_findTimer QAD_Timer_16bit = some QAD_Timer2 :=
  findTimer_scenario mixedTable (by decide) (by decide) (by decide)
    QAD_Timer_InUse_PWM QAD_Timer_InUse_IRQ (by decide) (by decide)

/-- C8 (first fit by capability flag). On every table state of the manager, a
table of the declared size in which every descriptor stores its table index as
identity, whatever the flags and ownership states, `findTimerEncoder()` returns,
and its result is the identity of the descriptor at the smallest index whose
descriptor is unused and has the encoder flag set; `findTimerADC()` does the same
with the ADC flag. Each result is `QAD_TimerNone` exactly when no descriptor is
both unused and flagged. -/
theorem imp_findTimer_flag_first_fit (m : QAD_TimerMgr) (hm : m.Sized) (hidx : m.Indexed) :
    (∃ r, m.imp_findTimerEncoder = some r ∧
      ((∃ i d, m.FirstAt QAD_Timer_Data.FreeEncoder i d ∧ r = d.eTimer) ∨
        (m.NoneIs QAD_Timer_Data.FreeEncoder ∧ r = QAD_TimerNone)) ∧
      (r = QAD_TimerNone ↔ m.NoneIs QAD_Timer_Data.FreeEncoder)) ∧
    (∃ r, m.imp_findTimerADC = some r ∧
      ((∃ i d, m.FirstAt QAD_Timer_Data.FreeADC i d ∧ r = d.eTimer) ∨
        (m.NoneIs QAD_Timer_Data.FreeADC ∧ r = QAD_TimerNone)) ∧
      (r = QAD_TimerNone ↔ m.NoneIs QAD_Timer_Data.FreeADC)) := by
  have hE : ∀ d : QAD_Timer_Data,
      (decide (d.eState = 0) && d.bEncoder) = true ↔ d.FreeEncoder := by
    intro d
    simp [QAD_Timer_Data.FreeEncoder, QAD_Timer_Unused]
  have hA : ∀ d : QAD_Timer_Data,
      (decide (d.eState = 0) && d.bADC) = true ↔ d.FreeADC := by
    intro d
    simp [QAD_Timer_Data.FreeADC, QAD_Timer_Unused]
  have hn := indexed_named m hm hidx
  obtain ⟨r, hr, hfit⟩ := scan_first_fit m hm _ _ hE
  obtain ⟨s, hs, hsfit⟩ := scan_first_fit m hm _ _ hA
  exact ⟨⟨r, hr, hfit, firstFit_none_iff m _ r hn hfit⟩,
    ⟨s, hs, hsfit, firstFit_none_iff m _ s hn hsfit⟩⟩

/-- C8 instantiated on the manager in which Timer1 is claimed. -/
theorem imp_findTimer_flag_first_fit_witness :
    (∃ r, timer1Claimed.imp_findTimerEncoder = some r ∧
      ((∃ i d, timer1Claimed.FirstAt QAD_Timer_Data.FreeEncoder i d ∧ r = d.eTimer) ∨
        (timer1Claimed.NoneIs QAD_Timer_Data.FreeEncoder ∧ r = QAD_TimerNone)) ∧
      (r = QAD_TimerNone ↔ timer1Claimed.NoneIs QAD_Timer_Data.FreeEncoder)) ∧
    (∃ r, timer1Claimed.imp_findTimerADC = some r ∧
      ((∃ i d, timer1Claimed.FirstAt QAD_Timer_Data.FreeADC i d ∧ r = d.eTimer) ∨
        (timer1Claimed.NoneIs QAD_Timer_Data.FreeADC ∧ r = QAD_TimerNone)) ∧
      (r = QAD_TimerNone ↔ timer1Claimed.NoneIs QAD_Timer_Data.FreeADC)) :=
  imp_findTimer_flag_first_fit timer1Claimed (by decide)
    (indexed_of_ids timer1Claimed (by decide))

/-! ## Bounds safety -/

/-- C9 (bounds-safe lookup). For every id value from `QAD_UARTNone` upwards (every
8-bit value in particular), `getState` returns `QAD_UART_InvalidDevice`,
`getInstance` returns `NULL` and `getIRQ` returns `UsageFault_IRQn`; this holds
for every table whatever its size, the empty one included, so the table is not
indexed. For every id below `QAD_UARTNone`, on a table of the declared size,
descriptor `id` exists and the three accessors return its `eState`, `pInstance`
and `eIRQ` fields. -/
theorem uart_accessors_bounds_safe (m : QAD_UARTMgr) (eUART : Nat) :
    (QAD_UARTNone ≤ eUART →
      m.getState eUART = some QAD_UART_InvalidDevice ∧
      m.getInstance eUART = some NULL ∧
      m.getIRQ eUART = some UsageFault_IRQn) ∧
    (m.Sized → eUART < QAD_UARTNone →
      ∃ d, m.m_sUARTs[eUART]? = some d ∧
        m.getState eUART = some d.eState ∧
        m.getInstance eUART = some d.pInstance ∧
        m.getIRQ eUART = some d.eIRQ) := by
  constructor
  · intro hge
    simp [QAD_UARTMgr.getState, QAD_UARTMgr.getInstance, QAD_UARTMgr.getIRQ, hge]
  · intro hm hlt
    have hlen : eUART < m.m_sUARTs.length := by
      rw [hm]; exact hlt
    have hd : m.m_sUARTs[eUART]? = some m.m_sUARTs[eUART] := List.getElem?_eq_getElem hlen
    have hng : ¬ eUART ≥ QAD_UARTNone := Nat.not_le_of_lt hlt
    exact ⟨m.m_sUARTs[eUART], hd,
      by simp only [QAD_UARTMgr.getState, hng, if_false, hd],
      by simp only [QAD_UARTMgr.getInstance, hng, if_false, hd],
      by simp only [QAD_UARTMgr.getIRQ, hng, if_false, hd]⟩

/-- C9 instantiated: the largest 8-bit id on the empty table, and `QAD_UART2` on
`uartTable`. -/
theorem uart_accessors_bounds_safe_witness :
    (QAD_UARTMgr.getState { m_sUARTs := [] } 255 = some QAD_UART_InvalidDevice ∧
      QAD_UARTMgr.getInstance { m_sUARTs := [] } 255 = some NULL ∧
      QAD_UARTMgr.getIRQ { m_sUARTs := [] } 255 = some UsageFault_IRQn) ∧
    (∃ d, uartTable.m_sUARTs[QAD_UART2]? = some d ∧
      uartTable.getState QAD_UART2 = some d.eState ∧
      uartTable.getInstance QAD_UART2 = some d.pInstance ∧
      uartTable.getIRQ QAD_UART2 = some d.eIRQ) :=
  ⟨(uart_accessors_bounds_safe { m_sUARTs := [] } 255).1 (by decide),
   (uart_accessors_bounds_safe uartTable QAD_UART2).2 (by decide) (by decide)⟩

/-- C10, the code at the failing input: on the constructed manager, whose table
has the declared size, `imp_registerTimer(QAD_TimerNone, QAD_Timer_InUse_IRQ)`
starts by reading `m_sTimers[QAD_TimerNone].eState`, one element past the end of
the table: there is no bounds test before the access and no `QA_Result` is
produced by defined behaviour. -/
theorem imp_registerTimer_sentinel_out_of_range :
    bluePill.Sized ∧ ¬ QAD_TimerNone < QAD_Timer_PeriphCount ∧
      bluePill.m_sTimers[QAD_TimerNone]? = none ∧
      bluePill.imp_registerTimer QAD_TimerNone QAD_Timer_InUse_IRQ = none := by
  decide

/-! ## Status counts -/

/-- C11 (count consistency). On every table of the declared size (every state
reached from construction is one), `getTimersActive()` and `getTimersInactive()`
both return, their results add up to `QAD_Timer_PeriphCount`, which is 3,
`getTimersActive()` is the number of descriptors whose state is not
`QAD_Timer_Unused` and `getTimersInactive()` the number of those whose state is,
and both calls leave the table as it was and invoke no platform primitive. -/
theorem timers_count_consistent (m : QAD_TimerMgr) (hm : m.Sized) :
    ∃ a b, m.imp_getTimersActive = some a ∧ m.imp_getTimersInactive = some b ∧
      a + b = QAD_Timer_PeriphCount ∧ QAD_Timer_PeriphCount = 3 ∧
      a = (m.m_sTimers.filter (fun d => decide (d.eState ≠ QAD_Timer_Unused))).length ∧
      b = (m.m_sTimers.filter (fun d => decide (d.eState = QAD_Timer_Unused))).length ∧
      m.perform MgrOp.getTimersActive = some (m, []) ∧
      m.perform MgrOp.getTimersInactive = some (m, []) := by
  obtain ⟨l⟩ := m
  have hlen : l.length = 3 := hm
  obtain ⟨x, y, z, rfl⟩ := List.length_eq_three.mp hlen
  by_cases hx : x.eState = 0 <;> by_cases hy : y.eState = 0 <;> by_cases hz : z.eState = 0 <;>
    simp [QAD_TimerMgr.imp_getTimersActive, QAD_TimerMgr.imp_getTimersInactive,
      QAD_TimerMgr.count, QAD_TimerMgr.perform, QAD_Timer_PeriphCount, QAD_TimerNone,
      QAD_Timer_Unused, List.filter, hx, hy, hz]

/-- C11 instantiated on the manager in which Timer1 is claimed. -/
theorem timers_count_consistent_witness :
    ∃ a b, timer1Claimed.imp_getTimersActive = some a ∧
      timer1Claimed.imp_getTimersInactive = some b ∧
      a + b = QAD_Timer_PeriphCount ∧ QAD_Timer_PeriphCount = 3 ∧
      a = (timer1Claimed.m_sTimers.filter
        (fun d => decide (d.eState ≠ QAD_Timer_Unused))).length ∧
      b = (timer1Claimed.m_sTimers.filter
        (fun d => decide (d.eState = QAD_Timer_Unused))).length ∧
      timer1Claimed.perform MgrOp.getTimersActive = some (timer1Claimed, []) ∧
      timer1Claimed.perform MgrOp.getTimersInactive = some (timer1Claimed, []) :=
  timers_count_consistent timer1Claimed (by decide)

/-! ## Clock lifecycle -/

/-- C12 (reset on every enable). For every valid timer id, whose register block
is the `pInstance` the constructor stores in descriptor `id`, the sequence
`enableClock(id); disableClock(id); enableClock(id)` leaves the table as it was
and invokes exactly clock-enable, reset-assert, reset-release, clock-disable,
clock-enable, reset-assert, reset-release, in that order and all on that register
block; `enableClock(id)` alone invokes the first three and `disableClock(id)`
alone invokes only the clock-disable. -/
theorem clock_reset_on_every_enable (pclk1 pclk2 : Nat) (m : QAD_TimerMgr) (eTimer : Nat)
    (hid : eTimer < QAD_Timer_PeriphCount) :
    ∃ d, (QAD_TimerMgr.ctor pclk1 pclk2).m_sTimers[eTimer]? = some d ∧
      m.performAll
          [MgrOp.enableClock eTimer, MgrOp.disableClock eTimer, MgrOp.enableClock eTimer]
        = some (m,
          [RccCall.CLK_ENABLE d.pInstance, RccCall.FORCE_RESET d.pInstance,
           RccCall.RELEASE_RESET d.pInstance, RccCall.CLK_DISABLE d.pInstance,
           RccCall.CLK_ENABLE d.pInstance, RccCall.FORCE_RESET d.pInstance,
           RccCall.RELEASE_RESET d.pInstance]) ∧
      m.imp_enableClock eTimer
        = (m, [RccCall.CLK_ENABLE d.pInstance, RccCall.FORCE_RESET d.pInstance,
           RccCall.RELEASE_RESET d.pInstance]) ∧
      m.imp_disableClock eTimer = (m, [RccCall.CLK_DISABLE d.pInstance]) := by
  have h3 : eTimer < 3 := hid
  interval_cases eTimer
  · exact ⟨_, rfl, rfl, rfl, rfl⟩
  · exact ⟨_, rfl, rfl, rfl, rfl⟩
  · exact ⟨_, rfl, rfl, rfl, rfl⟩

/-- C12 instantiated on Timer2 of the constructed manager. -/
theorem clock_reset_on_every_enable_witness :
    ∃ d, (QAD_TimerMgr.ctor 36000000 72000000).m_sTimers[QAD_Timer2]? = some d ∧
      bluePill.performAll
          [MgrOp.enableClock QAD_Timer2, MgrOp.disableClock QAD_Timer2,
           MgrOp.enableClock QAD_Timer2]
        = some (bluePill,
          [RccCall.CLK_ENABLE d.pInstance, RccCall.FORCE_RESET d.pInstance,
           RccCall.RELEASE_RESET d.pInstance, RccCall.CLK_DISABLE d.pInstance,
           RccCall.CLK_ENABLE d.pInstance, RccCall.FORCE_RESET d.pInstance,
           RccCall.RELEASE_RESET d.pInstance]) ∧
      bluePill.imp_enableClock QAD_Timer2
        = (bluePill, [RccCall.CLK_ENABLE d.pInstance, RccCall.FORCE_RESET d.pInstance,
           RccCall.RELEASE_RESET d.pInstance]) ∧
      bluePill.imp_disableClock QAD_Timer2 = (bluePill, [RccCall.CLK_DISABLE d.pInstance]) :=
  clock_reset_on_every_enable 36000000 72000000 bluePill QAD_Timer2 (by decide)

/-- C13. `enableClock(QAD_TimerNone)` and `disableClock(QAD_TimerNone)` invoke no
platform primitive; for every id, valid, sentinel or beyond, `enableClock` and
`disableClock` leave the table, hence every ownership state, as it was; and on a
table of the declared size `deregisterTimer` of a valid id invokes no platform
primitive. -/
theorem clock_sentinel_and_decoupling (m : QAD_TimerMgr) (eTimer : Nat) :
    m.perform (MgrOp.enableClock QAD_TimerNone) = some (m, []) ∧
      m.perform (MgrOp.disableClock QAD_TimerNone) = some (m, []) ∧
      (∃ ev, m.perform (MgrOp.enableClock eTimer) = some (m, ev)) ∧
      (∃ ev, m.perform (MgrOp.disableClock eTimer) = some (m, ev)) ∧
      (m.Sized → eTimer < QAD_Timer_PeriphCount →
        ∃ m1, m.perform (MgrOp.deregisterTimer eTimer) = some (m1, [])) := by
  refine ⟨rfl, rfl, ?_, ?_, ?_⟩
  · refine ⟨(m.imp_enableClock eTimer).2, ?_⟩
    simp only [QAD_TimerMgr.perform, QAD_TimerMgr.imp_enableClock]
    split_ifs <;> rfl
  · refine ⟨(m.imp_disableClock eTimer).2, ?_⟩
    simp only [QAD_TimerMgr.perform, QAD_TimerMgr.imp_disableClock]
    split_ifs <;> rfl
  · intro hm hid
    obtain ⟨d, hd⟩ := sized_lookup m hm eTimer hid
    exact ⟨{ m with m_sTimers := m.m_sTimers.set eTimer { d with eState := QAD_Timer_Unused } },
      by simp [QAD_TimerMgr.perform, deregister_eq m eTimer d hd]⟩

/-- C13 instantiated on Timer1 of the manager in which Timer1 is claimed. -/
theorem clock_sentinel_and_decoupling_witness :
    timer1Claimed.perform (MgrOp.enableClock QAD_TimerNone) = some (timer1Claimed, []) ∧
      timer1Claimed.perform (MgrOp.disableClock QAD_TimerNone) = some (timer1Claimed, []) ∧
      (∃ ev, timer1Claimed.perform (MgrOp.enableClock QAD_Timer1) = some (timer1Claimed, ev)) ∧
      (∃ ev, timer1Claimed.perform (MgrOp.disableClock QAD_Timer1) = some (timer1Claimed, ev)) ∧
      (∃ m1, timer1Claimed.perform (MgrOp.deregisterTimer QAD_Timer1) = some (m1, [])) :=
  ⟨(clock_sentinel_and_decoupling timer1Claimed QAD_Timer1).1,
   (clock_sentinel_and_decoupling timer1Claimed QAD_Timer1).2.1,
   (clock_sentinel_and_decoupling timer1Claimed QAD_Timer1).2.2.1,
   (clock_sentinel_and_decoupling timer1Claimed QAD_Timer1).2.2.2.1,
   (clock_sentinel_and_decoupling timer1Claimed QAD_Timer1).2.2.2.2 (by decide) (by decide)⟩

/-! ## Descriptor immutability -/

theorem sameFixed_refl (d : QAD_Timer_Data) : d.SameFixed d :=
  ⟨rfl, rfl, rfl, rfl, rfl, rfl, rfl, rfl⟩

theorem sameFixed_trans (d e f : QAD_Timer_Data) (h1 : d.SameFixed e) (h2 : e.SameFixed f) :
    d.SameFixed f := by
  obtain ⟨a1, a2, a3, a4, a5, a6, a7, a8⟩ := h1
  obtain ⟨b1, b2, b3, b4, b5, b6, b7, b8⟩ := h2
  exact ⟨b1.trans a1, b2.trans a2, b3.trans a3, b4.trans a4, b5.trans a5, b6.trans a6,
    b7.trans a7, b8.trans a8⟩

theorem table_sameFixed_refl (m : QAD_TimerMgr) : m.SameFixed m := by
  refine ⟨rfl, ?_⟩
  intro i d e hd he
  rw [hd] at he
  rw [← Option.some.inj he]
  exact sameFixed_refl d

theorem table_sameFixed_trans (m m1 m2 : QAD_TimerMgr) (h1 : m.SameFixed m1)
    (h2 : m1.SameFixed m2) : m.SameFixed m2 := by
  refine ⟨h2.1.trans h1.1, ?_⟩
  intro i d f hd hf
  have hlt : i < m1.m_sTimers.length := by
    rw [h1.1]; exact lookup_lt m i d hd
  have he : m1.m_sTimers[i]? = some m1.m_sTimers[i] := List.getElem?_eq_getElem hlt
  exact sameFixed_trans d _ f (h1.2 i d _ hd he) (h2.2 i _ f he hf)

/-- A write to the state field of one descriptor leaves the table size and every
other field of every descriptor as they were. -/
theorem set_state_sameFixed (m : QAD_TimerMgr) (i s : Nat) (d : QAD_Timer_Data)
    (hd : m.m_sTimers[i]? = some d) :
    m.SameFixed { m with m_sTimers := m.m_sTimers.set i { d with eState := s } } := by
  refine ⟨by simp, ?_⟩
  intro j d1 e hd1 he
  by_cases hij : i = j
  · subst hij
    have hlt := lookup_lt m i d hd
    have hset : (m.m_sTimers.set i { d with eState := s })[i]? = some { d with eState := s } :=
      List.getElem?_set_self hlt
    rw [hd] at hd1
    have he1 : some ({ d with eState := s } : QAD_Timer_Data) = some e := hset.symm.trans he
    rw [← Option.some.inj hd1, ← Option.some.inj he1]
    exact ⟨rfl, rfl, rfl, rfl, rfl, rfl, rfl, rfl⟩
  · have hset : (m.m_sTimers.set i { d with eState := s })[j]? = m.m_sTimers[j]? :=
      List.getElem?_set_ne hij
    have he1 : some d1 = some e := (hd1.symm.trans hset.symm).trans he
    rw [← Option.some.inj he1]
    exact sameFixed_refl d1

/-- A registration on a descriptor inside the table returns, and the table it
leaves is the old one or the old one with the state of that descriptor written. -/
theorem register_cases (m : QAD_TimerMgr) (i k : Nat) (d : QAD_Timer_Data)
    (hd : m.m_sTimers[i]? = some d) :
    ∃ r m1, m.imp_registerTimer i k = some (r, m1) ∧
      (m1 = m ∨ m1 = { m with m_sTimers := m.m_sTimers.set i { d with eState := k } }) := by
  by_cases hb : d.eState = 0
  · by_cases hk : k = 0
    · subst hk
      exact ⟨_, m, register_null m i d hd hb, Or.inl rfl⟩
    · exact ⟨_, _, register_free m i k d hd hb hk, Or.inr rfl⟩
  · exact ⟨_, m, register_busy m i k d hd hb, Or.inl rfl⟩

/-- On a table of the declared size the search loop returns. -/
theorem scan_returns (m : QAD_TimerMgr) (hm : m.Sized) (cond : QAD_Timer_Data → Bool) :
    ∃ r, m.scan cond QAD_Timer_PeriphCount 0 = some r := by
  have hle : 0 + QAD_Timer_PeriphCount ≤ m.m_sTimers.length := by
    rw [hm]; omega
  rcases scan_spec m cond QAD_Timer_PeriphCount 0 hle with
    ⟨_, d, _, _, _, _, _, hres⟩ | ⟨_, hres⟩
  · exact ⟨_, hres⟩
  · exact ⟨_, hres⟩

/-- The counting loop returns as long as it stays inside the table. -/
theorem count_inside (m : QAD_TimerMgr) (cond : QAD_Timer_Data → Bool) :
    ∀ (left i uCount : Nat), i + left ≤ m.m_sTimers.length →
      ∃ a, m.count cond left i uCount = some a := by
  intro left
  induction left with
  | zero =>
    intro i uCount _
    exact ⟨uCount, rfl⟩
  | succ n ih =>
    intro i uCount hle
    have hlt : i < m.m_sTimers.length := by omega
    have hd : m.m_sTimers[i]? = some m.m_sTimers[i] := List.getElem?_eq_getElem hlt
    obtain ⟨a, ha⟩ := ih (i + 1)
      (if cond m.m_sTimers[i] then (uCount + 1) % 2 ^ 8 else uCount) (by omega)
    exact ⟨a, by simp only [QAD_TimerMgr.count, hd]; exact ha⟩

/-- On a table of the declared size the counting loop returns. -/
theorem count_returns (m : QAD_TimerMgr) (hm : m.Sized) (cond : QAD_Timer_Data → Bool) :
    ∃ a, m.count cond QAD_Timer_PeriphCount 0 0 = some a :=
  count_inside m cond QAD_Timer_PeriphCount 0 0 (by rw [hm]; omega)

/-- The clock methods hand back the manager they were given. -/
theorem clock_keeps_table (m : QAD_TimerMgr) (eTimer : Nat) :
    (m.imp_enableClock eTimer).1 = m ∧ (m.imp_disableClock eTimer).1 = m := by
  constructor
  · simp only [QAD_TimerMgr.imp_enableClock]
    split_ifs <;> rfl
  · simp only [QAD_TimerMgr.imp_disableClock]
    split_ifs <;> rfl

/-- C14 (descriptor immutability). On a table of the declared size, every manager
operation on a valid id (`registerTimer`, `deregisterTimer`, `findTimer`,
`findTimerEncoder`, `findTimerADC`, `getTimersActive`, `getTimersInactive`,
`enableClock`, `disableClock`) returns and leaves the table size and, in every
descriptor, the identity, type, encoder flag, ADC flag, channel count and clock
speed (and the register block and interrupt number) as they were; and whenever
the ownership state of descriptor `i` differs afterwards, the operation was
`registerTimer(i, k)` or `deregisterTimer(i)`. -/
theorem descriptors_immutable (m : QAD_TimerMgr) (hm : m.Sized) (op : MgrOp)
    (hop : op.OnValidId) :
    ∃ m1 ev, m.perform op = some (m1, ev) ∧ m.SameFixed m1 ∧
      ∀ i : Nat, m1.stateAt i ≠ m.stateAt i → op.Claims i := by
  have same : ∀ ev : List RccCall, m.SameFixed m ∧
      ∀ i : Nat, m.stateAt i ≠ m.stateAt i → op.Claims i :=
    fun _ => ⟨table_sameFixed_refl m, fun i h => absurd rfl h⟩
  cases op with
  | registerTimer eTimer eState =>
    obtain ⟨d, hd⟩ := sized_lookup m hm eTimer hop
    obtain ⟨r, m1, hreg, hm1 | hm1⟩ := register_cases m eTimer eState d hd
    · subst hm1
      exact ⟨m1, [], by simp [QAD_TimerMgr.perform, hreg], same []⟩
    · refine ⟨m1, [], by simp [QAD_TimerMgr.perform, hreg], ?_, ?_⟩
      · rw [hm1]; exact set_state_sameFixed m eTimer eState d hd
      · intro i hne
        by_cases hi : eTimer = i
        · subst hi
          exact Or.inl ⟨eState, rfl⟩
        · rw [hm1, stateAt_set_other m eTimer i _ hi] at hne
          exact absurd rfl hne
  | deregisterTimer eTimer =>
    obtain ⟨d, hd⟩ := sized_lookup m hm eTimer hop
    refine ⟨{ m with m_sTimers := m.m_sTimers.set eTimer { d with eState := QAD_Timer_Unused } },
      [], by simp [QAD_TimerMgr.perform, deregister_eq m eTimer d hd],
      set_state_sameFixed m eTimer _ d hd, ?_⟩
    intro i hne
    by_cases hi : eTimer = i
    · subst hi
      exact Or.inr rfl
    · rw [stateAt_set_other m eTimer i _ hi] at hne
      exact absurd rfl hne
  | findTimer eType =>
    obtain ⟨r, hr⟩ := scan_returns m hm
      (fun d => decide (eType ≤ d.eType) && decide (d.eState = 0))
    exact ⟨m, [], by simp [QAD_TimerMgr.perform, QAD_TimerMgr.imp_findTimer, hr], same []⟩
  | findTimerEncoder =>
    obtain ⟨r, hr⟩ := scan_returns m hm (fun d => decide (d.eState = 0) && d.bEncoder)
    exact ⟨m, [], by simp [QAD_TimerMgr.perform, QAD_TimerMgr.imp_findTimerEncoder, hr],
      same []⟩
  | findTimerADC =>
    obtain ⟨r, hr⟩ := scan_returns m hm (fun d => decide (d.eState = 0) && d.bADC)
    exact ⟨m, [], by simp [QAD_TimerMgr.perform, QAD_TimerMgr.imp_findTimerADC, hr], same []⟩
  | getTimersActive =>
    obtain ⟨a, ha⟩ := count_returns m hm (fun d => decide (d.eState ≠ 0))
    refine ⟨m, [], ?_, same []⟩
    simp only [QAD_TimerMgr.perform, QAD_TimerMgr.imp_getTimersActive]
    rw [ha]; rfl
  | getTimersInactive =>
    obtain ⟨a, ha⟩ := count_returns m hm (fun d => decide (d.eState = 0))
    refine ⟨m, [], ?_, same []⟩
    simp only [QAD_TimerMgr.perform, QAD_TimerMgr.imp_getTimersInactive]
    rw [ha]; rfl
  | enableClock eTimer =>
    have hk := (clock_keeps_table m eTimer).1
    refine ⟨m, (m.imp_enableClock eTimer).2, ?_, same []⟩
    simp only [QAD_TimerMgr.perform]
    exact congrArg some (Prod.ext hk rfl)
  | disableClock eTimer =>
    have hk := (clock_keeps_table m eTimer).2
    refine ⟨m, (m.imp_disableClock eTimer).2, ?_, same []⟩
    simp only [QAD_TimerMgr.perform]
    exact congrArg some (Prod.ext hk rfl)

/-- C14 instantiated: Timer2 is registered for PWM on the manager in which Timer1
is claimed. -/
theorem descriptors_immutable_witness :
    ∃ m1 ev, timer1Claimed.perform (MgrOp.registerTimer QAD_Timer2 QAD_Timer_InUse_PWM)
        = some (m1, ev) ∧ timer1Claimed.SameFixed m1 ∧
      ∀ i : Nat, m1.stateAt i ≠ timer1Claimed.stateAt i →
        (MgrOp.registerTimer QAD_Timer2 QAD_Timer_InUse_PWM).Claims i :=
  descriptors_immutable timer1Claimed (by decide)
    (MgrOp.registerTimer QAD_Timer2 QAD_Timer_InUse_PWM)
    (by decide : QAD_Timer2 < QAD_Timer_PeriphCount)

/-! ## Frame timing -/

/-- What the frame timing block computes, for 32-bit readings: the elapsed ticks
when the new reading is not below the previous one, and one less than the
elapsed ticks when the counter wrapped between the two readings. -/
theorem frameTiming_uTicks (s : FrameTicks) (tick : Nat) (hs : s.uNewTick < 2 ^ 32)
    (ht : tick < 2 ^ 32) :
    (s.uNewTick ≤ tick → (frameTiming s tick).uTicks = elapsedTicks s.uNewTick tick) ∧
    (tick < s.uNewTick → (frameTiming s tick).uTicks + 1 = elapsedTicks s.uNewTick tick) := by
  constructor
  · intro hle
    by_cases heq : tick = s.uNewTick
    · simp only [frameTiming, elapsedTicks, heq, ne_eq, not_true_eq_false, if_false]
      omega
    · have hnlt : ¬ tick < s.uNewTick := by omega
      simp only [frameTiming, elapsedTicks, ne_eq, heq, not_false_eq_true, if_true, hnlt,
        if_false]
  · intro hlt
    have hne : tick ≠ s.uNewTick := by omega
    simp only [frameTiming, elapsedTicks, ne_eq, hne, not_false_eq_true, if_true, hlt]
    omega

/-- C15, the code at the failing input: the previous reading is `0xFFFFFFFF` and
`HAL_GetTick()` returns 0, so one millisecond has passed and the counter has
wrapped; the frame timing block takes the overflow branch and computes
`0 + (0xFFFFFFFF - 0xFFFFFFFF)`, so `uTicks` is 0 and not the elapsed 1. -/
theorem frameTiming_wrap_loses_a_tick :
    beforeWrap.uNewTick = 0xFFFFFFFF ∧
      frameTiming beforeWrap 0
        = { uTicks := 0, uCurTick := 0, uNewTick := 0, uOldTick := 0xFFFFFFFF } ∧
      elapsedTicks 0xFFFFFFFF 0 = 1 ∧
      (frameTiming beforeWrap 0).uTicks ≠ elapsedTicks 0xFFFFFFFF 0 := by
  decide

/-! ## States reached from the constructed manager -/

/-- A registration or deregistration on a valid id returns, keeps the table size
and keeps every field other than the ownership states. -/
theorem call_frame (m : QAD_TimerMgr) (hm : m.Sized) (c : TimerCall)
    (hc : c.target < QAD_Timer_PeriphCount) :
    ∃ m1, m.call c = some m1 ∧ m1.Sized ∧ m.SameFixed m1 := by
  obtain ⟨d, hd⟩ := sized_lookup m hm c.target hc
  cases c with
  | register j k =>
    simp only [TimerCall.target] at hd
    obtain ⟨r, m1, hreg, hm1 | hm1⟩ := register_cases m j k d hd
    · subst hm1
      exact ⟨m1, by simp [QAD_TimerMgr.call, hreg], hm, table_sameFixed_refl m1⟩
    · refine ⟨m1, by simp [QAD_TimerMgr.call, hreg], ?_, ?_⟩
      · rw [hm1]; exact sized_set m hm j _
      · rw [hm1]; exact set_state_sameFixed m j k d hd
  | deregister j =>
    simp only [TimerCall.target] at hd
    exact ⟨{ m with m_sTimers := m.m_sTimers.set j { d with eState := QAD_Timer_Unused } },
      by simp [QAD_TimerMgr.call, deregister_eq m j d hd], sized_set m hm j _,
      set_state_sameFixed m j _ d hd⟩

/-- The same over a whole sequence of calls. -/
theorem calls_frame (cs : List TimerCall) :
    ∀ (m : QAD_TimerMgr), m.Sized →
      (∀ c ∈ cs, TimerCall.target c < QAD_Timer_PeriphCount) →
      ∃ m2, m.calls cs = some m2 ∧ m2.Sized ∧ m.SameFixed m2 := by
  induction cs with
  | nil =>
    intro m hm _
    exact ⟨m, rfl, hm, table_sameFixed_refl m⟩
  | cons c cs ih =>
    intro m hm hvalid
    obtain ⟨m1, hcall, hm1, hsame1⟩ :=
      call_frame m hm c (hvalid c (List.mem_cons_self c cs))
    obtain ⟨m2, hcalls, hm2, hsame2⟩ :=
      ih m1 hm1 (fun c1 h1 => hvalid c1 (List.mem_cons_of_mem c h1))
    exact ⟨m2, by simp [QAD_TimerMgr.calls, hcall, hcalls], hm2,
      table_sameFixed_trans m m1 m2 hsame1 hsame2⟩

/-- The constructed table has the declared size; every descriptor stores its index
as identity, is unused, has the encoder flag set and the ADC flag clear. -/
theorem ctor_facts (pclk1 pclk2 : Nat) :
    (QAD_TimerMgr.ctor pclk1 pclk2).Sized ∧
      ∀ (i : Nat) (d : QAD_Timer_Data), (QAD_TimerMgr.ctor pclk1 pclk2).m_sTimers[i]? = some d →
        d.eTimer = i ∧ d.eState = QAD_Timer_Unused ∧ d.bEncoder = true ∧ d.bADC = false := by
  refine ⟨rfl, ?_⟩
  intro i d h
  match i, h with
  | 0, h =>
    have hd := Option.some.inj h
    rw [← hd]; exact ⟨rfl, rfl, rfl, rfl⟩
  | 1, h =>
    have hd := Option.some.inj h
    rw [← hd]; exact ⟨rfl, rfl, rfl, rfl⟩
  | 2, h =>
    have hd := Option.some.inj h
    rw [← hd]; exact ⟨rfl, rfl, rfl, rfl⟩
  | n + 3, h => exact Option.noConfusion h

/-- Every state reached from the constructed manager by registrations and
deregistrations on valid ids has the declared size, stores in every descriptor
its index as identity, and keeps the flags the constructor set. -/
theorem reached_facts (pclk1 pclk2 : Nat) (cs : List TimerCall)
    (hvalid : ∀ c ∈ cs, TimerCall.target c < QAD_Timer_PeriphCount) :
    ∃ m, (QAD_TimerMgr.ctor pclk1 pclk2).calls cs = some m ∧ m.Sized ∧
      ∀ (i : Nat) (e : QAD_Timer_Data), m.m_sTimers[i]? = some e →
        e.eTimer = i ∧ e.bEncoder = true ∧ e.bADC = false := by
  obtain ⟨hsz, hfacts⟩ := ctor_facts pclk1 pclk2
  obtain ⟨m, hcalls, hm, hlen, hsame⟩ := calls_frame cs _ hsz hvalid
  refine ⟨m, hcalls, hm, ?_⟩
  intro i e he
  have hlt : i < (QAD_TimerMgr.ctor pclk1 pclk2).m_sTimers.length := by
    rw [← hlen]; exact lookup_lt m i e he
  have hd : (QAD_TimerMgr.ctor pclk1 pclk2).m_sTimers[i]?
      = some (QAD_TimerMgr.ctor pclk1 pclk2).m_sTimers[i] := List.getElem?_eq_getElem hlt
  obtain ⟨a1, _, a3, a4, _⟩ := hsame i _ e hd he
  obtain ⟨b1, _, b3, b4⟩ := hfacts i _ hd
  exact ⟨a1.trans b1, a3.trans b3, a4.trans b4⟩

/-- In a table of the declared size whose descriptors store their indices, a
first fit for a property that implies "unused" is, unless it is the sentinel, a
valid index whose descriptor is unused and can be registered. -/
theorem firstFit_claimable (m : QAD_TimerMgr) (hm : m.Sized) (hidx : m.Indexed)
    (P : QAD_Timer_Data → Prop) (hP : ∀ d, P d → d.eState = QAD_Timer_Unused)
    (r k : Nat) (hfit : m.FirstFit P r) (hr : r ≠ QAD_TimerNone) (hk : k ≠ QAD_Timer_Unused) :
    r < QAD_Timer_PeriphCount ∧ m.stateAt r = some QAD_Timer_Unused ∧
      ∃ m1, m.imp_registerTimer r k = some (QA_Result.QA_OK, m1) := by
  rcases hfit with ⟨i, d, ⟨hd, hp, _⟩, hrd⟩ | ⟨_, hrn⟩
  · have hri : r = i := hrd.trans (hidx i d hd)
    subst hri
    have hlt := lookup_lt m r d hd
    rw [hm] at hlt
    exact ⟨hlt, by simp [QAD_TimerMgr.stateAt, hd, hP d hp],
      _, register_free m r k d hd (hP d hp) hk⟩
  · exact absurd hrn hr

/-- C16 (a found timer can be claimed). Every sequence of `registerTimer` and
`deregisterTimer` calls on valid ids runs from the constructed manager, and in
the state it reaches every descriptor stores its table index as identity; so
whenever `findTimer(t)`, `findTimerEncoder()` or `findTimerADC()` returns an id
other than `QAD_TimerNone`, that id is a table index, its descriptor is
`QAD_Timer_Unused`, and `registerTimer(id, k)` with any `k` other than
`QAD_Timer_Unused` returns `QA_OK`. -/
theorem found_timer_can_be_claimed (pclk1 pclk2 : Nat) (cs : List TimerCall)
    (hvalid : ∀ c ∈ cs, TimerCall.target c < QAD_Timer_PeriphCount) :
    ∃ m, (QAD_TimerMgr.ctor pclk1 pclk2).calls cs = some m ∧ m.Indexed ∧
      ∀ (eType r k : Nat),
        (m.imp_findTimer eType = some r ∨ m.imp_findTimerEncoder = some r ∨
          m.imp_findTimerADC = some r) →
        r ≠ QAD_TimerNone → k ≠ QAD_Timer_Unused →
        r < QAD_Timer_PeriphCount ∧ m.stateAt r = some QAD_Timer_Unused ∧
          ∃ m1, m.imp_registerTimer r k = some (QA_Result.QA_OK, m1) := by
  obtain ⟨m, hcalls, hm, hfacts⟩ := reached_facts pclk1 pclk2 cs hvalid
  have hidx : m.Indexed := fun i e he => (hfacts i e he).1
  refine ⟨m, hcalls, hidx, ?_⟩
  intro eType r k hfound hr hk
  rcases hfound with h | h | h
  · have hP : ∀ d : QAD_Timer_Data,
        (decide (eType ≤ d.eType) && decide (d.eState = 0)) = true ↔ d.Serves eType := by
      intro d
      simp [QAD_Timer_Data.Serves, QAD_Timer_Unused, and_comm]
    obtain ⟨r1, hr1, hfit⟩ := scan_first_fit m hm _ _ hP
    have hrr : r1 = r := Option.some.inj (hr1.symm.trans h)
    subst hrr
    exact firstFit_claimable m hm hidx _ (fun d hd => hd.1) r1 k hfit hr hk
  · have hP : ∀ d : QAD_Timer_Data,
        (decide (d.eState = 0) && d.bEncoder) = true ↔ d.FreeEncoder := by
      intro d
      simp [QAD_Timer_Data.FreeEncoder, QAD_Timer_Unused]
    obtain ⟨r1, hr1, hfit⟩ := scan_first_fit m hm _ _ hP
    have hrr : r1 = r := Option.some.inj (hr1.symm.trans h)
    subst hrr
    exact firstFit_claimable m hm hidx _ (fun d hd => hd.1) r1 k hfit hr hk
  · have hP : ∀ d : QAD_Timer_Data,
        (decide (d.eState = 0) && d.bADC) = true ↔ d.FreeADC := by
      intro d
      simp [QAD_Timer_Data.FreeADC, QAD_Timer_Unused]
    obtain ⟨r1, hr1, hfit⟩ := scan_first_fit m hm _ _ hP
    have hrr : r1 = r := Option.some.inj (hr1.symm.trans h)
    subst hrr
    exact firstFit_claimable m hm hidx _ (fun d hd => hd.1) r1 k hfit hr hk

/-- C16 instantiated: Timer1 is claimed, Timer2 is claimed and released. -/
theorem found_timer_can_be_claimed_witness :
    ∃ m, (QAD_TimerMgr.ctor 36000000 72000000).calls
        [TimerCall.register QAD_Timer1 QAD_Timer_InUse_IRQ,
         TimerCall.register QAD_Timer2 QAD_Timer_InUse_PWM,
         TimerCall.deregister QAD_Timer2] = some m ∧ m.Indexed ∧
      ∀ (eType r k : Nat),
        (m.imp_findTimer eType = some r ∨ m.imp_findTimerEncoder = some r ∨
          m.imp_findTimerADC = some r) →
        r ≠ QAD_TimerNone → k ≠ QAD_Timer_Unused →
        r < QAD_Timer_PeriphCount ∧ m.stateAt r = some QAD_Timer_Unused ∧
          ∃ m1, m.imp_registerTimer r k = some (QA_Result.QA_OK, m1) :=
  found_timer_can_be_claimed 36000000 72000000 _ (by decide)

/-- C17 (the ADC-trigger search never finds a timer). The constructor leaves every
descriptor unused with the encoder flag set and the ADC flag clear, and
`findTimerADC()` on the constructed manager, where all three timers are unused,
returns `QAD_TimerNone`. Every sequence of `registerTimer` and `deregisterTimer`
calls on valid ids runs from the constructed manager, and in the state it
reaches the flags are as constructed, `findTimerADC()` returns `QAD_TimerNone`,
and `findTimerEncoder()` returns the smallest index whose descriptor is unused
(and `QAD_TimerNone` when no descriptor is unused). -/
theorem adc_search_finds_nothing (pclk1 pclk2 : Nat) (cs : List TimerCall)
    (hvalid : ∀ c ∈ cs, TimerCall.target c < QAD_Timer_PeriphCount) :
    (∀ (i : Nat) (d : QAD_Timer_Data), (QAD_TimerMgr.ctor pclk1 pclk2).m_sTimers[i]? = some d →
        d.eState = QAD_Timer_Unused ∧ d.bEncoder = true ∧ d.bADC = false) ∧
      (QAD_TimerMgr.ctor pclk1 pclk2).imp_findTimerADC = some QAD_TimerNone ∧
      ∃ m, (QAD_TimerMgr.ctor pclk1 pclk2).calls cs = some m ∧
        (∀ (i : Nat) (e : QAD_Timer_Data), m.m_sTimers[i]? = some e →
          e.bEncoder = true ∧ e.bADC = false) ∧
        m.imp_findTimerADC = some QAD_TimerNone ∧
        ∃ r, m.imp_findTimerEncoder = some r ∧
          ((m.LowestUnused r ∧ r < QAD_Timer_PeriphCount) ∨
            ((∀ i : Nat, m.stateAt i ≠ some QAD_Timer_Unused) ∧ r = QAD_TimerNone)) := by
  obtain ⟨m, hcalls, hm, hfacts⟩ := reached_facts pclk1 pclk2 cs hvalid
  refine ⟨fun i d hd => (ctor_facts pclk1 pclk2).2 i d hd |>.2, rfl, m, hcalls,
    fun i e he => (hfacts i e he).2, ?_, ?_⟩
  · have hP : ∀ d : QAD_Timer_Data,
        (decide (d.eState = 0) && d.bADC) = true ↔ d.FreeADC := by
      intro d
      simp [QAD_Timer_Data.FreeADC, QAD_Timer_Unused]
    obtain ⟨r, hr, hfit⟩ := scan_first_fit m hm _ _ hP
    rcases hfit with ⟨i, d, ⟨hd, hp, _⟩, _⟩ | ⟨_, hrn⟩
    · have hadc := (hfacts i d hd).2.2
      rw [hp.2] at hadc
      exact Bool.noConfusion hadc
    · rw [← hrn]; exact hr
  · have hP : ∀ d : QAD_Timer_Data,
        (decide (d.eState = 0) && d.bEncoder) = true ↔ d.FreeEncoder := by
      intro d
      simp [QAD_Timer_Data.FreeEncoder, QAD_Timer_Unused]
    obtain ⟨r, hr, hfit⟩ := scan_first_fit m hm _ _ hP
    refine ⟨r, hr, ?_⟩
    have hstate : ∀ (j : Nat) (e : QAD_Timer_Data), m.m_sTimers[j]? = some e →
        ¬ e.FreeEncoder → m.stateAt j ≠ some QAD_Timer_Unused := by
      intro j e he hne hs
      obtain ⟨e1, he1, hs1⟩ := stateAt_eq m j _ hs
      rw [he] at he1
      rw [← Option.some.inj he1] at hs1
      exact hne ⟨hs1, (hfacts j e he).2.1⟩
    rcases hfit with ⟨i, d, ⟨hd, hp, hmin⟩, hrd⟩ | ⟨hnone, hrn⟩
    · have hri : r = i := hrd.trans (hfacts i d hd).1
      subst hri
      have hlt := lookup_lt m r d hd
      rw [hm] at hlt
      refine Or.inl ⟨⟨by simp [QAD_TimerMgr.stateAt, hd, hp.1], ?_⟩, hlt⟩
      intro j hj
      have hjlt : j < m.m_sTimers.length := by
        rw [hm]; omega
      have he : m.m_sTimers[j]? = some m.m_sTimers[j] := List.getElem?_eq_getElem hjlt
      exact hstate j _ he (hmin j _ hj he)
    · refine Or.inr ⟨?_, hrn⟩
      intro i hs
      obtain ⟨e, he, _⟩ := stateAt_eq m i _ hs
      exact hstate i e he (hnone i e he) hs

/-- C17 instantiated: Timer1 is claimed, Timer2 is claimed and released. -/
theorem adc_search_finds_nothing_witness :
    (∀ (i : Nat) (d : QAD_Timer_Data),
        (QAD_TimerMgr.ctor 36000000 72000000).m_sTimers[i]? = some d →
        d.eState = QAD_Timer_Unused ∧ d.bEncoder = true ∧ d.bADC = false) ∧
      (QAD_TimerMgr.ctor 36000000 72000000).imp_findTimerADC = some QAD_TimerNone ∧
      ∃ m, (QAD_TimerMgr.ctor 36000000 72000000).calls
          [TimerCall.register QAD_Timer1 QAD_Timer_InUse_IRQ,
           TimerCall.register QAD_Timer2 QAD_Timer_InUse_PWM,
           TimerCall.deregister QAD_Timer2] = some m ∧
        (∀ (i : Nat) (e : QAD_Timer_Data), m.m_sTimers[i]? = some e →
          e.bEncoder = true ∧ e.bADC = false) ∧
        m.imp_findTimerADC = some QAD_TimerNone ∧
        ∃ r, m.imp_findTimerEncoder = some r ∧
          ((m.LowestUnused r ∧ r < QAD_Timer_PeriphCount) ∨
            ((∀ i : Nat, m.stateAt i ≠ some QAD_Timer_Unused) ∧ r = QAD_TimerNone)) :=
  adc_search_finds_nothing 36000000 72000000 _ (by decide)

end QuartzArc
